import Mathlib

/-!
# numpy_io: header codec and array file I/O

A shallow embedding of `contrib_ops/webgpu/moe/numpy_io.h` and `numpy_io.cc`.

* A `std::string` and the content of a binary file are lists of `Char`; a byte is a
  character whose code is below 256.
* `size_t` values are natural numbers, reduced modulo `2^64` where the C++ arithmetic wraps.
* A thrown exception is the `error` case of `Except NpyError`.
* An element of type `T` is its object representation: a list of `sizeof(T)` bytes.
* A variable that the C++ code leaves uninitialised is a parameter of the model.
* `NumpyArray.create` and `read_numpy_array` stand for a machine whose only limit is the range
  of `size_t`: a buffer of less than `2^64` bytes is always allocated, a larger one never.
  `NumpyArray.create_on` and `read_numpy_array_on` take the limits of the machine, the
  `max_size()` of a vector and the memory left, as a parameter; `read_numpy_array_on_agrees`
  relates the two.
-/

set_option maxRecDepth 1000000

namespace numpy_io

/-! ## Data model -/

/-- The exceptions the code can throw. -/
inductive NpyError where
  /-- The `std::runtime_error("Cannot open file: ...")` of `read_numpy_array`. -/
  | cannot_open
  /-- The `std::runtime_error("Invalid numpy file format")`. -/
  | invalid_format
  /-- The `std::runtime_error("Error reading data from file")`. -/
  | read_error
  /-- The `std::runtime_error("Cannot create file: ...")` of `write_numpy_array`. -/
  | cannot_create
  /-- The `std::invalid_argument` thrown by `std::stoull`. -/
  | invalid_argument
  /-- The `std::out_of_range` thrown by `std::stoull`. -/
  | out_of_range
  /-- The `std::length_error` thrown by `std::vector::resize`. -/
  | length_error
  /-- The `std::bad_alloc` thrown when `std::vector::resize` cannot allocate. -/
  | bad_alloc
  deriving DecidableEq, Repr

/-- The `struct NumpyHeader` of `numpy_io.h`. -/
structure NumpyHeader where
  dtype : List Char
  shape : List Nat
  fortran_order : Bool
  deriving DecidableEq, Repr

deriving instance DecidableEq for Except

/-- The number of values of `size_t`. -/
def SIZE_MOD : Nat := 2 ^ 64

/-! ## Library behaviour used by the codec -/

/-- The `isspace` of the "C" locale: what `\s` matches in `std::regex` and what `strtoull`
skips in front of a number. -/
def isspace (c : Char) : Bool :=
  c == ' ' || c == '\t' || c == '\n' || c == '\x0b' || c == '\x0c' || c == '\r'

/-- The `isdigit` of the "C" locale. -/
def isdigit (c : Char) : Bool :=
  decide ('0'.toNat ≤ c.toNat) && decide (c.toNat ≤ '9'.toNat)

/-- Matching a literal at the front of the text: the rest of the text after it. -/
def match_literal : List Char → List Char → Option (List Char)
  | [], s => some s
  | _ :: _, [] => none
  | p :: ps, c :: cs => if p = c then match_literal ps cs else none

/-- The function `std::regex_search` for a pattern given by its matcher at one start position:
the start positions are tried from left to right, the end of the text included, and the
first one where the pattern matches gives the result. -/
def regex_search {α : Type} (match_at : List Char → Option α) : List Char → Option α
  | [] => match_at []
  | c :: cs =>
    match match_at (c :: cs) with
    | some r => some r
    | none => regex_search match_at cs

/-- The pattern `'descr':\s*'([^']+)'` at one start position; the result is capture group 1.
The greedy `\s*` and `[^']+` take maximal runs: a shorter run is followed by a character of
the run, which the next pattern character `'` does not match. -/
def dtype_regex (s : List Char) : Option (List Char) :=
  match match_literal "'descr':".toList s with
  | none => none
  | some r =>
    match r.dropWhile isspace with
    | '\'' :: r2 =>
      let cap := r2.takeWhile (fun c => c != '\'')
      match cap, r2.dropWhile (fun c => c != '\'') with
      | _ :: _, '\'' :: _ => some cap
      | _, _ => none
    | _ => none

/-- The pattern `'fortran_order':\s*(True|False)` at one start position; the result is
capture group 1. -/
def fortran_regex (s : List Char) : Option (List Char) :=
  match match_literal "'fortran_order':".toList s with
  | none => none
  | some r =>
    let r1 := r.dropWhile isspace
    match match_literal "True".toList r1 with
    | some _ => some "True".toList
    | none =>
      match match_literal "False".toList r1 with
      | some _ => some "False".toList
      | none => none

/-- The pattern `'shape':\s*\(([^)]*)\)` at one start position; the result is capture
group 1. -/
def shape_regex (s : List Char) : Option (List Char) :=
  match match_literal "'shape':".toList s with
  | none => none
  | some r =>
    match r.dropWhile isspace with
    | '(' :: r2 =>
      match r2.dropWhile (fun c => c != ')') with
      | ')' :: _ => some (r2.takeWhile (fun c => c != ')'))
      | _ => none
    | _ => none

/-- The loop `while (std::getline(ss, item, ','))` as the list of the items it yields.
`cur` holds the characters of the item being read, last one first, and `extracted` tells
whether the running `getline` call has extracted a character: a call that meets the end of
the stream without having extracted anything sets failbit and ends the loop. -/
def getline_loop : List Char → List Char → Bool → List (List Char)
  | [], cur, extracted => if extracted then [cur.reverse] else []
  | c :: cs, cur, _ =>
    if c = ',' then cur.reverse :: getline_loop cs [] false
    else getline_loop cs (c :: cur) true

/-- The items of `std::getline(ss, item, ',')` over a stream holding `s`. -/
def getline_items (s : List Char) : List (List Char) :=
  getline_loop s [] false

/-- The blank characters removed around an item: `" \t"`. -/
def is_blank (c : Char) : Bool := c == ' ' || c == '\t'

/-- The two `erase` calls on an item:
`item.erase(0, item.find_first_not_of(" \t")); item.erase(item.find_last_not_of(" \t") + 1);` -/
def trim_item (item : List Char) : List Char :=
  ((item.dropWhile is_blank).reverse.dropWhile is_blank).reverse

/-- The value of a run of decimal digits. -/
def digits_value (ds : List Char) : Nat :=
  ds.foldl (fun v c => 10 * v + (c.toNat - '0'.toNat)) 0

/-- The function `std::stoull(item)`, that is `strtoull(item.c_str(), &end, 10)`: leading
`isspace` characters are skipped, one sign is accepted, the longest run of decimal digits is
converted, and what follows the run is ignored. No digit at all throws
`std::invalid_argument`, a value above `ULLONG_MAX` throws `std::out_of_range`, and a
minus sign negates the value in `unsigned long long`. A NUL character inside the item ends
the C string; it is neither a space, a sign nor a digit, so the scan stops there anyway. -/
def stoull (item : List Char) : Except NpyError Nat :=
  let s := item.dropWhile isspace
  let negative := decide (s.head? = some '-')
  let s1 := if s.head? = some '-' ∨ s.head? = some '+' then s.tail else s
  let ds := s1.takeWhile isdigit
  if ds = [] then .error .invalid_argument
  else if SIZE_MOD ≤ digits_value ds then .error .out_of_range
  else if negative then .ok ((SIZE_MOD - digits_value ds) % SIZE_MOD)
  else .ok (digits_value ds)

/-- The text `ss << n` writes for a `size_t`: its decimal representation. -/
def size_t_text (n : Nat) : List Char := Nat.toDigits 10 n

/-! ## The header codec (`numpy_io.cc`) -/

/-- The body of the `while` loop of `parse_header` over the items of the shape text: an
item that is empty after trimming is skipped, any other item goes through `std::stoull`
and its value is pushed onto `header.shape`. -/
def parse_shape_items : List (List Char) → List Nat → Except NpyError (List Nat)
  | [], shape => .ok shape
  | item :: items, shape =>
    let item1 := trim_item item
    if item1 = [] then parse_shape_items items shape
    else
      match stoull item1 with
      | .error e => .error e
      | .ok v => parse_shape_items items (shape ++ [v])

/-- The function `parse_header`. The declaration `NumpyHeader header;` gives the empty
string and the empty vector to `dtype` and `shape`, and leaves the `bool fortran_order`
without a value (the struct has no member initialiser): `indeterminate` stands for what
that member holds before the code assigns it. -/
def parse_header (indeterminate : Bool) (header_str : List Char) :
    Except NpyError NumpyHeader :=
  let dtype : List Char :=
    match regex_search dtype_regex header_str with
    | some d => d
    | none => []
  let fortran_order : Bool :=
    match regex_search fortran_regex header_str with
    | some m => decide (m = "True".toList)
    | none => indeterminate
  match regex_search shape_regex header_str with
  | some shape_str =>
    match parse_shape_items (getline_items shape_str) [] with
    | .error e => .error e
    | .ok shape => .ok { dtype := dtype, shape := shape, fortran_order := fortran_order }
  | none => .ok { dtype := dtype, shape := [], fortran_order := fortran_order }

/-- The `for` loop of `create_header` from index `i` on:
`if (i > 0) ss << ", "; ss << shape[i];` -/
def shape_loop : Nat → List Nat → List Char
  | _, [] => []
  | i, d :: ds =>
    (if i > 0 then ", ".toList else []) ++ size_t_text d ++ shape_loop (i + 1) ds

/-- The function `create_header`. -/
def create_header (dtype : List Char) (shape : List Nat) (fortran_order : Bool) : List Char :=
  "\x7b'descr': '".toList ++ dtype ++ "', 'fortran_order': ".toList
    ++ (if fortran_order then "True".toList else "False".toList)
    ++ ", 'shape': (".toList
    ++ shape_loop 0 shape
    ++ (if shape.length = 1 then ",".toList else [])
    ++ "), \x7d".toList

/-- The specialisations of `get_dtype_string`, one for each supported element type. -/
inductive DType where
  | float
  | double
  | int32_t
  | int64_t
  | uint32_t
  | uint64_t
  | MLFloat16
  deriving DecidableEq, Repr

/-- The function `get_dtype_string<T>()`. -/
def get_dtype_string : DType → List Char
  | .float => "<f4".toList
  | .double => "<f8".toList
  | .int32_t => "<i4".toList
  | .int64_t => "<i8".toList
  | .uint32_t => "<u4".toList
  | .uint64_t => "<u8".toList
  | .MLFloat16 => "<f2".toList

/-- Modelled from the spec: the value of `sizeof(T)`. The fixed-width integer types have
their width, `float` and `double` are the 4-byte and 8-byte IEEE formats, and
`onnxruntime::MLFloat16`, declared in `core/framework/float16.h` outside these sources, is
the "2-byte little-endian half-precision float" of the dtype-tag table. -/
def sizeof : DType → Nat
  | .float => 4
  | .double => 8
  | .int32_t => 4
  | .int64_t => 8
  | .uint32_t => 4
  | .uint64_t => 8
  | .MLFloat16 => 2

/-! ## The array container (`numpy_io.h`) -/

/-- The class `NumpyArray<T>`: `data` holds one object representation for each element. -/
structure NumpyArray where
  data : List (List Char)
  shape : List Nat
  deriving DecidableEq, Repr

/-- The loop `size_t total = 1; for (size_t dim : shape) total *= dim;` in `size_t`
arithmetic. -/
def total_size (shape : List Nat) : Nat :=
  shape.foldl (fun total dim => (total * dim) % SIZE_MOD) 1

/-- The member function `size()`. -/
def NumpyArray.size (array : NumpyArray) : Nat := total_size array.shape

/-- The constructor `NumpyArray(const std::vector<size_t>& shape)`: `data.resize(total_size)`
value-initialises the elements, so each of them is `sizeof(T)` zero bytes. A vector holds at
most `max_size()` elements, which is never more than `SIZE_MAX / sizeof(T)`, and `resize`
throws `std::length_error` beyond it: a buffer of 2^64 bytes or more is never created.
Below that size the allocation is taken to succeed here; `NumpyArray.create_on` is the
constructor with the `max_size()` and the memory of a given machine, where `resize` throws
`std::length_error` earlier and `std::bad_alloc` when memory is short. -/
def NumpyArray.create (T : DType) (shape : List Nat) : Except NpyError NumpyArray :=
  if SIZE_MOD ≤ total_size shape * sizeof T then .error .length_error
  else
    .ok { data := List.replicate (total_size shape) (List.replicate (sizeof T) '\x00'),
          shape := shape }

/-- The bytes of the buffer `array.data.data()`. -/
def buffer_bytes (data : List (List Char)) : List Char := data.flatten

/-- The buffer seen as `count` elements of `size` bytes each. -/
def buffer_elements : Nat → Nat → List Char → List (List Char)
  | 0, _, _ => []
  | count + 1, size, bytes => bytes.take size :: buffer_elements count size (bytes.drop size)

/-! ## Streams -/

/-- An input file stream: the bytes not yet read and whether the stream is still good. -/
structure IStream where
  rest : List Char
  good : Bool
  deriving DecidableEq, Repr

/-- The call `file.read(buf, n)`; `buf` is what the destination holds before the call, the
result is what it holds afterwards. A stream that is not good extracts nothing. When fewer
than `n` bytes are left they are stored and the stream stops being good (eofbit and
failbit). -/
def IStream.read (st : IStream) (n : Nat) (buf : List Char) : List Char × IStream :=
  if st.good then
    if n ≤ st.rest.length then (st.rest.take n ++ buf.drop n, { rest := st.rest.drop n, good := true })
    else (st.rest ++ buf.drop st.rest.length, { rest := [], good := false })
  else (buf, st)

/-- The value of an unsigned integer stored least significant byte first. -/
def little_endian_value (bytes : List Char) : Nat :=
  bytes.foldr (fun c v => c.toNat % 256 + 256 * v) 0

/-- The two bytes of a `uint16_t` in memory, least significant first. -/
def uint16_bytes (v : Nat) : List Char :=
  [Char.ofNat (v % 256), Char.ofNat (v / 256 % 256)]

/-- The magic string `"\x93NUMPY"`. -/
def MAGIC : List Char := ['\x93', 'N', 'U', 'M', 'P', 'Y']

/-- What the local variables of `read_numpy_array` and the `fortran_order` member of the
header hold before the code stores anything in them: none of them is initialised. -/
structure Uninitialised where
  magic : List Char
  major_version : Char
  minor_version : Char
  header_len : List Char
  header_len_32 : List Char
  fortran_order : Bool
  deriving DecidableEq, Repr

/-! ## Array file I/O (`numpy_io.h`) -/

/-- The function `read_numpy_array<T>`. `file` is the content of the file, `none` when it
cannot be opened. -/
def read_numpy_array (T : DType) (u : Uninitialised) (file : Option (List Char)) :
    Except NpyError NumpyArray :=
  match file with
  | none => .error .cannot_open
  | some content =>
    let st0 : IStream := { rest := content, good := true }
    -- Read magic string
    let (magic, st1) := st0.read 6 u.magic
    if magic.take 6 ≠ MAGIC then .error .invalid_format
    else
      -- Read version
      let (major_version, st2) := st1.read 1 [u.major_version]
      let (_, st3) := st2.read 1 [u.minor_version]
      -- Read header length
      let (header_len, st4) :=
        if major_version = [Char.ofNat 1] then
          let (b, st) := st3.read 2 u.header_len
          (little_endian_value (b.take 2), st)
        else
          let (b, st) := st3.read 4 u.header_len_32
          (little_endian_value (b.take 4) % 65536, st)
      -- Read header
      let (header_str, st5) := st4.read header_len (List.replicate header_len '\x00')
      -- Parse header
      match parse_header u.fortran_order header_str with
      | .error e => .error e
      | .ok header =>
        -- Create array
        match NumpyArray.create T header.shape with
        | .error e => .error e
        | .ok array =>
          -- Read data
          let (bytes, st6) :=
            st5.read ((array.size * sizeof T) % SIZE_MOD) (buffer_bytes array.data)
          if st6.good then
            .ok { data := buffer_elements (total_size header.shape) (sizeof T) bytes,
                  shape := header.shape }
          else .error .read_error

/-- The header text `write_numpy_array` stores: the output of `create_header`, the padding
and the newline. -/
def padded_header (T : DType) (array : NumpyArray) : List Char :=
  let header_str := create_header (get_dtype_string T) array.shape false
  -- Pad header to 16-byte boundary
  let total_header_size := (10 + header_str.length) % SIZE_MOD
  let padding := (16 - (total_header_size % 16)) % 16
  header_str ++ List.replicate padding ' ' ++ ['\n']

/-- The value of `uint16_t header_len = static_cast<uint16_t>(header_str.length())`. -/
def written_header_len (T : DType) (array : NumpyArray) : Nat :=
  (padded_header T array).length % 65536

/-- The function `write_numpy_array<T>`: the bytes it writes to the file, in order.
`can_create` tells whether the file can be created; once it is open the writes are taken to
complete. The payload is the first `array.size() * sizeof(T)` bytes of the data buffer; a
buffer that holds fewer bytes is read past its end in C++, which has no defined result, and
the model stops at the end of the buffer. -/
def write_numpy_array (T : DType) (can_create : Bool) (array : NumpyArray) :
    Except NpyError (List Char) :=
  if can_create then
    let header_str := padded_header T array
    let header_len := written_header_len T array
    .ok (MAGIC ++ [Char.ofNat 1, Char.ofNat 0]
      ++ uint16_bytes header_len
      ++ header_str.take header_len
      ++ (buffer_bytes array.data).take ((array.size * sizeof T) % SIZE_MOD))
  else .error .cannot_create

/-! ## Auxiliary definitions used in the statements and proofs

None of these is part of the program: they name pieces of its output, properties in the
words of the specification, and sample inputs. -/

/-- The text the loop of `create_header` emits after the first dimension. -/
def tail_text : List Nat → List Char
  | [] => []
  | d :: ds => ',' :: ' ' :: (size_t_text d ++ tail_text ds)

/-- The text between the parentheses in the output of `create_header`. -/
def shape_text (shape : List Nat) : List Char :=
  shape_loop 0 shape ++ (if shape.length = 1 then ",".toList else [])

/-- Whether a literal and a text differ at a position both of them have. -/
def mismatch : List Char → List Char → Bool
  | [], _ => false
  | _ :: _, [] => false
  | p :: ps, c :: cs => if p = c then mismatch ps cs else true

/-- Whether a literal differs from the text at every start position of the text. -/
def mismatch_everywhere (lit : List Char) : List Char → Bool
  | [] => true
  | c :: cs => mismatch lit (c :: cs) && mismatch_everywhere lit cs

/-- A matcher that fails wherever its leading literal fails. -/
def LedBy {α : Type} (lit : List Char) (m : List Char → Option α) : Prop :=
  ∀ t, match_literal lit t = none → m t = none

/-- The characters the loop of `create_header` emits. -/
def shape_char (c : Char) : Bool := isdigit c || c == ',' || c == ' '

/-- The text of `create_header` from the `fortran_order` key on, followed by `suffix`. -/
def after_dtype (shape : List Nat) (fortran_order : Bool) (suffix : List Char) : List Char :=
  "'fortran_order': ".toList ++ (if fortran_order then "True".toList else "False".toList)
    ++ ", 'shape': (".toList ++ shape_text shape ++ "), \x7d".toList ++ suffix

/-- An array of element type `T` as it exists in memory: every element has `sizeof(T)`
bytes, every dimension is a `size_t`, and the byte size of the data buffer is a `size_t`. -/
structure InMemory (T : DType) (array : NumpyArray) : Prop where
  elements : ∀ e ∈ array.data, e.length = sizeof T
  dims : ∀ d ∈ array.shape, d < 2 ^ 64
  bytes : array.data.length * sizeof T < 2 ^ 64

/-- What `read_numpy_array<T>` does once the header text is read, with the stream in the
state `st5`: decode the text, create the array and read the payload. -/
def read_payload (T : DType) (u : Uninitialised) (header_str : List Char) (st5 : IStream) :
    Except NpyError NumpyArray :=
  match parse_header u.fortran_order header_str with
  | .error e => .error e
  | .ok header =>
    match NumpyArray.create T header.shape with
    | .error e => .error e
    | .ok array =>
      let (bytes, st6) :=
        st5.read ((array.size * sizeof T) % SIZE_MOD) (buffer_bytes array.data)
      if st6.good then
        .ok { data := buffer_elements (total_size header.shape) (sizeof T) bytes,
              shape := header.shape }
      else .error .read_error

/-- What `read_numpy_array<T>` does once the header text is read from a stream that is
still good: decode it, create the array and read the payload from the rest of the file. -/
def read_after_header (T : DType) (u : Uninitialised) (header_str payload : List Char) :
    Except NpyError NumpyArray :=
  read_payload T u header_str { rest := payload, good := true }

/-- The reads of `read_numpy_array` between the magic string and the payload, from the
stream `st1` left by the read of the magic string: the header text as read and the stream
after it. -/
def read_frame_from (u : Uninitialised) (st1 : IStream) : List Char × IStream :=
  let (major_version, st2) := st1.read 1 [u.major_version]
  let (_, st3) := st2.read 1 [u.minor_version]
  let (header_len, st4) :=
    if major_version = [Char.ofNat 1] then
      let (b, st) := st3.read 2 u.header_len
      (little_endian_value (b.take 2), st)
    else
      let (b, st) := st3.read 4 u.header_len_32
      (little_endian_value (b.take 4) % 65536, st)
  st4.read header_len (List.replicate header_len '\x00')

/-- The reads of `read_numpy_array` between the magic string and the payload, on the bytes
`rest` that follow a complete magic string. -/
def read_frame (u : Uninitialised) (rest : List Char) : List Char × IStream :=
  read_frame_from u { rest := rest, good := true }

/-- The size of the header length field for a major version byte. -/
def len_field_size (major : Char) : Nat := if major = Char.ofNat 1 then 2 else 4

/-- The header length `read_numpy_array` takes from a complete length field. -/
def header_len_of (major : Char) (field : List Char) : Nat :=
  if major = Char.ofNat 1 then little_endian_value field
  else little_endian_value field % 65536

/-- The single-precision values 1.0 to 6.0 as a 2 x 3 array: each element is the four
bytes of its IEEE 754 encoding, least significant first. -/
def floats_2x3 : NumpyArray :=
  { data := [['\x00', '\x00', '\x80', '\x3f'], ['\x00', '\x00', '\x00', '\x40'],
             ['\x00', '\x00', '\x40', '\x40'], ['\x00', '\x00', '\x80', '\x40'],
             ['\x00', '\x00', '\xa0', '\x40'], ['\x00', '\x00', '\xc0', '\x40']],
    shape := [2, 3] }

/-- Sample stale memory for the uninitialised variables. -/
def stale : Uninitialised :=
  { magic := ['\xff', '\xff', '\xff', '\xff', '\xff', '\xff'],
    major_version := '\x07', minor_version := '\x07',
    header_len := ['\xff', '\xff'], header_len_32 := ['\xff', '\xff', '\xff', '\xff'],
    fortran_order := true }

/-- The dtype tags of the supported element types. -/
def supported_tags : List (List Char) :=
  ["<f4".toList, "<f8".toList, "<i4".toList, "<i8".toList, "<u4".toList, "<u8".toList,
   "<f2".toList]

/-- The shape tuple in the words of the specification: the dimensions as decimal text joined
by `", "` between parentheses, with one more comma when there is exactly one dimension. -/
def spec_shape_tuple (shape : List Nat) : List Char :=
  "(".toList ++ List.intercalate ", ".toList (shape.map size_t_text)
    ++ (if shape.length = 1 then ",".toList else []) ++ ")".toList

/-- A header text with a shape entry and nothing else. -/
def shape_only_header : List Char := "\x7b'shape': (3,), \x7d".toList

/-- The padding length in the words of the specification:
`(16 - (10 + header_len) mod 16) mod 16`. -/
def spec_padding (header_len : Nat) : Nat := (16 - (10 + header_len) % 16) % 16

/-- A float array of shape 10 x 20 x 30 x 400 with all elements zero. -/
def floats_4d : NumpyArray :=
  { data := List.replicate 2400000 ['\x00', '\x00', '\x00', '\x00'],
    shape := [10, 20, 30, 400] }

/-- The bytes after the magic string of a version 1.0 file whose header is the one written
for the 2 x 3 float array and whose payload stops after the first of the six elements. -/
def short_payload_rest : List Char :=
  Char.ofNat 1 :: Char.ofNat 0 :: (uint16_bytes 71
    ++ (padded_header DType.float floats_2x3 ++ ['\x00', '\x00', '\x80', '\x3f']))

/-- The header text of a file of doubles that declares the shape `(4611686018427387904,)`,
that is 2^62 elements and 2^65 bytes. -/
def oversized_header : List Char :=
  "\x7b'descr': '<f8', 'fortran_order': False, 'shape': (4611686018427387904,), \x7d\n".toList

/-- The bytes after the magic string of a version 1.0 file with the header text
`oversized_header` and no payload. -/
def oversized_rest : List Char :=
  Char.ofNat 1 :: Char.ofNat 0 :: (uint16_bytes 76 ++ (oversized_header ++ []))

/-- The supported element types, in the order of the specialisations in `numpy_io.cc`. -/
def all_types : List DType :=
  [.float, .double, .int32_t, .int64_t, .uint32_t, .uint64_t, .MLFloat16]

/-- A version 2.0 file: the four-byte length field holds 65536 + 71, the header text is the
one written for the 2 x 3 float array and so is the payload. -/
def version_2_file : List Char :=
  MAGIC ++ (Char.ofNat 2 :: Char.ofNat 0
    :: ([Char.ofNat 71, Char.ofNat 0, Char.ofNat 1, Char.ofNat 0]
      ++ (padded_header DType.float floats_2x3 ++ buffer_bytes floats_2x3.data)))

/-- The header text written for the 2 x 3 float array with the dtype tag replaced by `<i8`
and the flag by `True`, in the same number of bytes. -/
def retagged_header : List Char :=
  "\x7b'descr': '<i8', 'fortran_order': True, 'shape': (2, 3), \x7d            \n".toList

/-- The header text in the words of the specification's grammar: the closing brace directly
after the shape tuple. -/
def spec_header_text (dtype : List Char) (shape : List Nat) (fortran_order : Bool) :
    List Char :=
  "\x7b'descr': '".toList ++ dtype ++ "', 'fortran_order': ".toList
    ++ (if fortran_order then "True".toList else "False".toList) ++ ", 'shape': ".toList
    ++ spec_shape_tuple shape ++ "\x7d".toList

/-- The 2 x 3 float array as its constructor builds it: six elements of four zero bytes. -/
def zeros_2x3 : NumpyArray :=
  { data := List.replicate 6 (List.replicate 4 '\x00'), shape := [2, 3] }

/-- A float array with one element and 21900 dimensions, each of extent 1. -/
def wide_array : NumpyArray :=
  { data := [['\x00', '\x00', '\x80', '\x3f']], shape := 1 :: List.replicate 21899 1 }

/-- A token of a shape list as the specification describes it: spaces and tabs, then the digits of
a decimal integer (none for a token that is empty or blank), then spaces and tabs. -/
structure ShapeToken where
  before : List Char
  digits : List Char
  after : List Char
  deriving DecidableEq, Repr

/-- The text of a token. -/
def ShapeToken.text (t : ShapeToken) : List Char := t.before ++ t.digits ++ t.after

/-- Whether a token is well formed: only spaces and tabs around the digits,
only decimal digits in the middle, and a value below 2^64. -/
def ShapeToken.valid (t : ShapeToken) : Bool :=
  t.before.all is_blank && t.digits.all isdigit && t.after.all is_blank
    && decide (digits_value t.digits < 2 ^ 64)

/-- The text of a shape list: the tokens separated by commas. -/
def join_tokens (ts : List ShapeToken) : List Char :=
  List.intercalate ",".toList (ts.map ShapeToken.text)

/-- The shape the specification gives to a list of tokens: the values of the integer tokens in
their order, the tokens without digits left out. -/
def expected_shape (ts : List ShapeToken) : List Nat :=
  (ts.filter (fun t => !t.digits.isEmpty)).map (fun t => digits_value t.digits)

/-- An entry of the dictionary literal of a header text. -/
inductive Entry where
  | descr (tag : List Char)
  | fortran_order (flag : Bool)
  | shape (dims : List Nat)
  deriving DecidableEq, Repr

/-- The text of an entry, as `create_header` writes it. -/
def Entry.text : Entry → List Char
  | .descr tag => "'descr': '".toList ++ tag ++ "'".toList
  | .fortran_order flag =>
    "'fortran_order': ".toList ++ (if flag then "True".toList else "False".toList)
  | .shape dims => "'shape': (".toList ++ shape_text dims ++ ")".toList

/-- The entries each followed by a comma and a space, as `create_header` writes them. -/
def entries_text : List Entry → List Char
  | [] => []
  | e :: es => e.text ++ ", ".toList ++ entries_text es

/-- The dictionary literal with the given entries in the given order, in the layout of
`create_header`. -/
def dict_text (es : List Entry) : List Char :=
  "\x7b".toList ++ entries_text es ++ "\x7d".toList

/-- An entry with a supported dtype tag, or with dimensions below 2^64. -/
def Entry.supported : Entry → Prop
  | .descr tag => tag ∈ supported_tags
  | .fortran_order _ => True
  | .shape dims => ∀ d ∈ dims, d < 2 ^ 64

/-- The tag of the first `descr` entry. -/
def first_descr : List Entry → Option (List Char)
  | [] => none
  | .descr tag :: _ => some tag
  | _ :: es => first_descr es

/-- The flag of the first `fortran_order` entry. -/
def first_fortran_order : List Entry → Option Bool
  | [] => none
  | .fortran_order flag :: _ => some flag
  | _ :: es => first_fortran_order es

/-- The dimensions of the first `shape` entry. -/
def first_shape : List Entry → Option (List Nat)
  | [] => none
  | .shape dims :: _ => some dims
  | _ :: es => first_shape es

/-- The limits `std::vector::resize` meets on a machine. -/
structure Memory where
  /-- The largest byte size of a vector buffer: `max_size()` is `max_bytes / sizeof(T)`
  elements, with `max_bytes` equal to `PTRDIFF_MAX` in libstdc++. -/
  max_bytes : Nat
  /-- The number of bytes the allocator can still provide. -/
  available : Nat
  deriving DecidableEq, Repr

/-- The constructor `NumpyArray(const std::vector<size_t>& shape)` on a machine with the
limits `m`: `data.resize(total_size)` throws `std::length_error` when `total_size` exceeds
`max_size()`, throws `std::bad_alloc` when the allocator cannot provide the bytes, and
otherwise value-initialises `total_size` elements. -/
def NumpyArray.create_on (m : Memory) (T : DType) (shape : List Nat) :
    Except NpyError NumpyArray :=
  if m.max_bytes / sizeof T < total_size shape then .error .length_error
  else if m.available < total_size shape * sizeof T then .error .bad_alloc
  else
    .ok { data := List.replicate (total_size shape) (List.replicate (sizeof T) '\x00'),
          shape := shape }

/-- What `read_numpy_array<T>` does once the header text is read, with the stream in the
state `st5`, on a machine with the limits `m`. -/
def read_payload_on (m : Memory) (T : DType) (u : Uninitialised) (header_str : List Char)
    (st5 : IStream) : Except NpyError NumpyArray :=
  match parse_header u.fortran_order header_str with
  | .error e => .error e
  | .ok header =>
    match NumpyArray.create_on m T header.shape with
    | .error e => .error e
    | .ok array =>
      let (bytes, st6) :=
        st5.read ((array.size * sizeof T) % SIZE_MOD) (buffer_bytes array.data)
      if st6.good then
        .ok { data := buffer_elements (total_size header.shape) (sizeof T) bytes,
              shape := header.shape }
      else .error .read_error

/-- The function `read_numpy_array<T>` on a machine with the limits `m`. It differs from
`read_numpy_array` in the creation of the array only. -/
def read_numpy_array_on (m : Memory) (T : DType) (u : Uninitialised)
    (file : Option (List Char)) : Except NpyError NumpyArray :=
  match file with
  | none => .error .cannot_open
  | some content =>
    let st0 : IStream := { rest := content, good := true }
    -- Read magic string
    let (magic, st1) := st0.read 6 u.magic
    if magic.take 6 ≠ MAGIC then .error .invalid_format
    else
      -- Read version
      let (major_version, st2) := st1.read 1 [u.major_version]
      let (_, st3) := st2.read 1 [u.minor_version]
      -- Read header length
      let (header_len, st4) :=
        if major_version = [Char.ofNat 1] then
          let (b, st) := st3.read 2 u.header_len
          (little_endian_value (b.take 2), st)
        else
          let (b, st) := st3.read 4 u.header_len_32
          (little_endian_value (b.take 4) % 65536, st)
      -- Read header
      let (header_str, st5) := st4.read header_len (List.replicate header_len '\x00')
      -- Parse header
      match parse_header u.fortran_order header_str with
      | .error e => .error e
      | .ok header =>
        -- Create array
        match NumpyArray.create_on m T header.shape with
        | .error e => .error e
        | .ok array =>
          -- Read data
          let (bytes, st6) :=
            st5.read ((array.size * sizeof T) % SIZE_MOD) (buffer_bytes array.data)
          if st6.good then
            .ok { data := buffer_elements (total_size header.shape) (sizeof T) bytes,
                  shape := header.shape }
          else .error .read_error

/-- A machine whose only limit is the range of `size_t`: the one `NumpyArray.create` and
`read_numpy_array` stand for. -/
def unlimited_memory : Memory := { max_bytes := 2 ^ 64 - 1, available := 2 ^ 64 - 1 }

/-- A 64-bit machine with libstdc++ and 16 GiB for the allocator. -/
def sample_memory : Memory := { max_bytes := 2 ^ 63 - 1, available := 2 ^ 34 }

theorem digitChar_isdigit (d : Nat) (h : d < 10) : isdigit (Nat.digitChar d) = true := by
  interval_cases d <;> decide

theorem digitChar_value (d : Nat) (h : d < 10) :
    (Nat.digitChar d).toNat - '0'.toNat = d := by
  interval_cases d <;> decide

theorem digitChar_ne_zero (d : Nat) (h : d < 10) (h0 : 0 < d) : Nat.digitChar d ≠ '0' := by
  interval_cases d <;> decide

theorem toDigitsCore_isdigit (fuel : Nat) :
    ∀ (n : Nat) (ds : List Char), (∀ c ∈ ds, isdigit c = true) →
      ∀ c ∈ Nat.toDigitsCore 10 fuel n ds, isdigit c = true := by
  induction fuel with
  | zero => intro n ds h; simpa [Nat.toDigitsCore] using h
  | succ fuel ih =>
    intro n ds h
    have hd : ∀ c ∈ Nat.digitChar (n % 10) :: ds, isdigit c = true := by
      intro c hc
      rcases List.mem_cons.mp hc with rfl | hc
      · exact digitChar_isdigit _ (Nat.mod_lt _ (by decide))
      · exact h c hc
    unfold Nat.toDigitsCore
    by_cases h0 : n / 10 = 0
    · simpa [h0] using hd
    · simp only [h0, if_false]
      exact ih _ _ hd

theorem toDigitsCore_value (fuel : Nat) :
    ∀ (n : Nat) (ds : List Char), n < fuel →
      (Nat.toDigitsCore 10 fuel n ds).foldl (fun v c => 10 * v + (c.toNat - '0'.toNat)) 0
        = ds.foldl (fun v c => 10 * v + (c.toNat - '0'.toNat)) n := by
  induction fuel with
  | zero => intro n ds h; omega
  | succ fuel ih =>
    intro n ds h
    unfold Nat.toDigitsCore
    by_cases h0 : n / 10 = 0
    · have hn : n % 10 = n := by omega
      simp only [h0, if_true, List.foldl_cons, hn]
      rw [digitChar_value n (by omega)]
      simp
    · simp only [h0, if_false]
      rw [ih (n / 10) _ (by omega)]
      simp only [List.foldl_cons]
      rw [digitChar_value _ (Nat.mod_lt _ (by decide))]
      congr 1
      omega

theorem toDigitsCore_head (fuel : Nat) :
    ∀ (n : Nat) (ds : List Char), 0 < n → n < fuel →
      ∃ d rest, 0 < d ∧ d < 10 ∧ Nat.toDigitsCore 10 fuel n ds = Nat.digitChar d :: rest := by
  induction fuel with
  | zero => intro n ds _ h; omega
  | succ fuel ih =>
    intro n ds hpos h
    unfold Nat.toDigitsCore
    by_cases h0 : n / 10 = 0
    · exact ⟨n % 10, ds, by omega, by omega, by simp [h0]⟩
    · simp only [h0, if_false]
      exact ih _ _ (by omega) (by omega)

theorem size_t_text_isdigit (n : Nat) : ∀ c ∈ size_t_text n, isdigit c = true :=
  toDigitsCore_isdigit _ _ _ (by simp)

theorem size_t_text_value (n : Nat) : digits_value (size_t_text n) = n := by
  unfold digits_value size_t_text Nat.toDigits
  rw [toDigitsCore_value _ _ _ (by omega)]
  rfl

theorem size_t_text_zero : size_t_text 0 = ['0'] := by decide

theorem size_t_text_head (n : Nat) (h : 0 < n) :
    ∃ d rest, 0 < d ∧ d < 10 ∧ size_t_text n = Nat.digitChar d :: rest :=
  toDigitsCore_head _ _ _ h (by omega)

theorem size_t_text_ne_nil (n : Nat) : size_t_text n ≠ [] := by
  rcases Nat.eq_zero_or_pos n with h | h
  · subst h; decide
  · obtain ⟨d, rest, _, _, e⟩ := size_t_text_head n h
    simp [e]

theorem isdigit_not_blank (c : Char) (h : isdigit c = true) : is_blank c = false := by
  unfold isdigit at h
  simp only [Bool.and_eq_true, decide_eq_true_eq] at h
  unfold is_blank
  have h1 : c ≠ ' ' := by rintro rfl; revert h; decide
  have h2 : c ≠ '\t' := by rintro rfl; revert h; decide
  simp [h1, h2]

theorem isdigit_not_space (c : Char) (h : isdigit c = true) : isspace c = false := by
  unfold isdigit at h
  simp only [Bool.and_eq_true, decide_eq_true_eq] at h
  unfold isspace
  have h1 : c ≠ ' ' := by rintro rfl; revert h; decide
  have h2 : c ≠ '\t' := by rintro rfl; revert h; decide
  have h3 : c ≠ '\n' := by rintro rfl; revert h; decide
  have h4 : c ≠ '\x0b' := by rintro rfl; revert h; decide
  have h5 : c ≠ '\x0c' := by rintro rfl; revert h; decide
  have h6 : c ≠ '\r' := by rintro rfl; revert h; decide
  simp [h1, h2, h3, h4, h5, h6]

theorem isdigit_ne (c x : Char) (h : isdigit c = true) (hx : isdigit x = false) : c ≠ x := by
  rintro rfl; simp [h] at hx

theorem dropWhile_blank_digits (ds : List Char) (h : ∀ c ∈ ds, isdigit c = true) :
    ds.dropWhile is_blank = ds := by
  cases ds with
  | nil => rfl
  | cons c cs => simp [List.dropWhile_cons, isdigit_not_blank c (h c (by simp))]

theorem trim_item_digits (ds : List Char) (h : ∀ c ∈ ds, isdigit c = true) :
    trim_item ds = ds := by
  unfold trim_item
  rw [dropWhile_blank_digits ds h]
  have h2 : ∀ c ∈ ds.reverse, isdigit c = true := fun c hc => h c (List.mem_reverse.mp hc)
  rw [dropWhile_blank_digits _ h2, List.reverse_reverse]

theorem trim_item_space_digits (ds : List Char) (h : ∀ c ∈ ds, isdigit c = true) :
    trim_item (' ' :: ds) = ds := by
  have e : trim_item (' ' :: ds) = trim_item ds := by
    unfold trim_item
    have hb : is_blank ' ' = true := by decide
    rw [List.dropWhile_cons, hb]
    rfl
  rw [e, trim_item_digits ds h]

theorem takeWhile_all {p : Char → Bool} (l : List Char) (h : ∀ c ∈ l, p c = true) :
    l.takeWhile p = l := by
  induction l with
  | nil => rfl
  | cons c cs ih =>
    rw [List.takeWhile_cons, h c (by simp)]
    simp only [if_true]
    rw [ih (fun x hx => h x (List.mem_cons_of_mem _ hx))]

theorem stoull_digits (ds : List Char) (hne : ds ≠ []) (h : ∀ c ∈ ds, isdigit c = true)
    (hv : digits_value ds < SIZE_MOD) : stoull ds = .ok (digits_value ds) := by
  obtain ⟨c, cs, rfl⟩ := List.exists_cons_of_ne_nil hne
  have hc := h c (by simp)
  have e2 : (c :: cs).dropWhile isspace = c :: cs := by
    simp [List.dropWhile_cons, isdigit_not_space c hc]
  have hm : c ≠ '-' := isdigit_ne c '-' hc (by decide)
  have hp : c ≠ '+' := isdigit_ne c '+' hc (by decide)
  have e3 : (c :: cs).takeWhile isdigit = c :: cs := takeWhile_all _ h
  unfold stoull
  simp only [e2, List.head?_cons, Option.some.injEq, hm, hp, or_self, if_false, e3,
    decide_False]
  simp [Nat.not_le.mpr hv]

theorem stoull_size_t_text (n : Nat) (h : n < SIZE_MOD) : stoull (size_t_text n) = .ok n := by
  have := stoull_digits (size_t_text n) (size_t_text_ne_nil n) (size_t_text_isdigit n)
    (by rw [size_t_text_value]; exact h)
  rw [this, size_t_text_value]

/-! ### The `getline` loop over the shape text -/

theorem getline_loop_append (x : List Char) (hx : ∀ c ∈ x, c ≠ ',') :
    ∀ (rest cur : List Char) (b : Bool),
      getline_loop (x ++ rest) cur b = getline_loop rest (x.reverse ++ cur) (b || !x.isEmpty) := by
  induction x with
  | nil => intro rest cur b; simp
  | cons c cs ih =>
    intro rest cur b
    have hc : c ≠ ',' := hx c (by simp)
    rw [List.cons_append, getline_loop]
    simp only [hc, if_false]
    rw [ih (fun y hy => hx y (List.mem_cons_of_mem _ hy))]
    simp

theorem isdigit_ne_comma (c : Char) (h : isdigit c = true) : c ≠ ',' :=
  isdigit_ne c ',' h (by decide)

theorem shape_loop_succ (i : Nat) (ds : List Nat) : shape_loop (i + 1) ds = tail_text ds := by
  induction ds generalizing i with
  | nil => rfl
  | cons d ds ih =>
    rw [shape_loop, tail_text, ih]
    simp

theorem shape_loop_zero_cons (d : Nat) (ds : List Nat) :
    shape_loop 0 (d :: ds) = size_t_text d ++ tail_text ds := by
  rw [shape_loop, shape_loop_succ]
  simp

theorem getline_loop_tail_text (ds : List Nat) :
    ∀ cur : List Char, getline_loop (tail_text ds) cur true
      = cur.reverse :: ds.map (fun d => ' ' :: size_t_text d) := by
  induction ds with
  | nil => intro cur; simp [tail_text, getline_loop]
  | cons d ds ih =>
    intro cur
    rw [tail_text, getline_loop]
    simp only [if_true]
    have hx : ∀ c ∈ ' ' :: size_t_text d, c ≠ ',' := by
      intro c hc
      rcases List.mem_cons.mp hc with rfl | hc
      · decide
      · exact isdigit_ne_comma c (size_t_text_isdigit d c hc)
    have := getline_loop_append (' ' :: size_t_text d) hx (tail_text ds) [] false
    rw [List.cons_append] at this
    rw [this]
    simp only [List.isEmpty_cons, Bool.not_false, Bool.or_true, List.append_nil]
    rw [ih]
    simp

theorem getline_items_shape (d : Nat) (ds : List Nat) :
    getline_items (size_t_text d ++ tail_text ds)
      = size_t_text d :: ds.map (fun d => ' ' :: size_t_text d) := by
  unfold getline_items
  rw [getline_loop_append _ (fun c hc => isdigit_ne_comma c (size_t_text_isdigit d c hc))]
  have hne : (size_t_text d).isEmpty = false := by
    cases h : size_t_text d with
    | nil => exact absurd h (size_t_text_ne_nil d)
    | cons _ _ => rfl
  simp only [hne, Bool.not_false, Bool.or_true, List.append_nil]
  rw [getline_loop_tail_text]
  simp

theorem getline_items_single (d : Nat) :
    getline_items (size_t_text d ++ [',']) = [size_t_text d] := by
  unfold getline_items
  rw [getline_loop_append _ (fun c hc => isdigit_ne_comma c (size_t_text_isdigit d c hc))]
  simp [getline_loop]

theorem parse_shape_items_spaced (ds : List Nat) (h : ∀ d ∈ ds, d < SIZE_MOD) :
    ∀ acc : List Nat,
      parse_shape_items (ds.map (fun d => ' ' :: size_t_text d)) acc = .ok (acc ++ ds) := by
  induction ds with
  | nil => intro acc; simp [parse_shape_items]
  | cons d ds ih =>
    intro acc
    rw [List.map_cons, parse_shape_items]
    simp only [trim_item_space_digits _ (size_t_text_isdigit d), size_t_text_ne_nil, if_false,
      stoull_size_t_text d (h d (by simp))]
    rw [ih (fun x hx => h x (List.mem_cons_of_mem _ hx))]
    simp

theorem parse_shape_items_first (d : Nat) (hd : d < SIZE_MOD) (items : List (List Char))
    (acc : List Nat) :
    parse_shape_items (size_t_text d :: items) acc = parse_shape_items items (acc ++ [d]) := by
  rw [parse_shape_items]
  simp only [trim_item_digits _ (size_t_text_isdigit d), size_t_text_ne_nil, if_false,
    stoull_size_t_text d hd]

theorem parse_shape_text (shape : List Nat) (h : ∀ d ∈ shape, d < SIZE_MOD) :
    parse_shape_items (getline_items (shape_text shape)) [] = .ok shape := by
  unfold shape_text
  cases shape with
  | nil => simp [shape_loop, getline_items, getline_loop, parse_shape_items]
  | cons d ds =>
    have hd := h d (by simp)
    have hds : ∀ x ∈ ds, x < SIZE_MOD := fun x hx => h x (List.mem_cons_of_mem _ hx)
    cases ds with
    | nil =>
      have e : shape_loop 0 [d] ++ (if [d].length = 1 then ",".toList else [])
          = size_t_text d ++ [','] := by
        simp [shape_loop]
      rw [e, getline_items_single, parse_shape_items_first d hd]
      simp [parse_shape_items]
    | cons d2 ds =>
      have e : shape_loop 0 (d :: d2 :: ds)
          ++ (if (d :: d2 :: ds).length = 1 then ",".toList else [])
          = size_t_text d ++ tail_text (d2 :: ds) := by
        rw [shape_loop_zero_cons]; simp
      rw [e, getline_items_shape, parse_shape_items_first d hd, parse_shape_items_spaced _ hds]
      simp

/-! ### Stepping `regex_search` through a text -/

theorem regex_search_of_match {α : Type} (m : List Char → Option α) (s : List Char) (r : α)
    (h : m s = some r) : regex_search m s = some r := by
  cases s with
  | nil => simpa [regex_search] using h
  | cons c cs => simp [regex_search, h]

theorem regex_search_cons_none {α : Type} (m : List Char → Option α) (c : Char)
    (cs : List Char) (h : m (c :: cs) = none) :
    regex_search m (c :: cs) = regex_search m cs := by
  simp [regex_search, h]

theorem match_literal_mismatch (lit : List Char) :
    ∀ (pre s : List Char), mismatch lit pre = true → match_literal lit (pre ++ s) = none := by
  induction lit with
  | nil => intro pre s h; simp [mismatch] at h
  | cons p ps ih =>
    intro pre s h
    cases pre with
    | nil => simp [mismatch] at h
    | cons c cs =>
      rw [List.cons_append, match_literal]
      by_cases hpc : p = c
      · simp only [hpc, if_true]
        apply ih
        simpa [mismatch, hpc] using h
      · simp [hpc]

theorem match_literal_append (lit s : List Char) : match_literal lit (lit ++ s) = some s := by
  induction lit with
  | nil => cases s <;> rfl
  | cons p ps ih => rw [List.cons_append, match_literal]; simpa using ih

theorem regex_search_skip {α : Type} (lit : List Char) (m : List Char → Option α)
    (hm : LedBy lit m) (pre : List Char) (h : mismatch_everywhere lit pre = true)
    (s : List Char) : regex_search m (pre ++ s) = regex_search m s := by
  induction pre with
  | nil => rfl
  | cons c cs ih =>
    simp only [mismatch_everywhere, Bool.and_eq_true] at h
    rw [List.cons_append, regex_search_cons_none]
    · exact ih h.2
    · exact hm _ (match_literal_mismatch lit (c :: cs) s h.1)

theorem mismatch_everywhere_of_no_quote (lit pre : List Char)
    (h : ∀ c ∈ pre, c ≠ '\'') : mismatch_everywhere ('\'' :: lit) pre = true := by
  induction pre with
  | nil => rfl
  | cons c cs ih =>
    have hc : ¬ '\'' = c := fun e => h c (by simp) e.symm
    simp only [mismatch_everywhere, mismatch, hc, if_false, Bool.true_and]
    exact ih (fun x hx => h x (List.mem_cons_of_mem _ hx))

theorem match_literal_quoted_word (w : List Char) (hw : ∀ c ∈ w, c ≠ '\'') :
    ∀ (d rest : List Char), (∀ c ∈ d, c ≠ '\'') →
      match_literal (w ++ ['\'', ':']) (d ++ '\'' :: ',' :: rest) = none := by
  induction w with
  | nil =>
    intro d rest hd
    cases d with
    | nil => simp [match_literal]
    | cons c cs =>
      have hc : ¬ '\'' = c := fun e => hd c (by simp) e.symm
      simp [match_literal, hc]
  | cons x xs ih =>
    intro d rest hd
    cases d with
    | nil =>
      have hx : x ≠ '\'' := hw x (by simp)
      simp [match_literal, hx]
    | cons c cs =>
      rw [List.cons_append, List.cons_append, match_literal]
      by_cases hxc : x = c
      · simp only [hxc, if_true]
        exact ih (fun y hy => hw y (List.mem_cons_of_mem _ hy)) cs rest
          (fun y hy => hd y (List.mem_cons_of_mem _ hy))
      · simp [hxc]

theorem dtype_regex_led : LedBy "'descr':".toList dtype_regex := by
  intro t h; unfold dtype_regex; rw [h]

theorem fortran_regex_led : LedBy "'fortran_order':".toList fortran_regex := by
  intro t h; unfold fortran_regex; rw [h]

theorem shape_regex_led : LedBy "'shape':".toList shape_regex := by
  intro t h; unfold shape_regex; rw [h]

theorem span_until (p : Char → Bool) (x : List Char) (c : Char) (rest : List Char)
    (hx : ∀ y ∈ x, p y = true) (hc : p c = false) :
    (x ++ c :: rest).takeWhile p = x ∧ (x ++ c :: rest).dropWhile p = c :: rest := by
  induction x with
  | nil => simp [List.takeWhile_cons, List.dropWhile_cons, hc]
  | cons y ys ih =>
    have hy := hx y (by simp)
    have := ih (fun z hz => hx z (List.mem_cons_of_mem _ hz))
    simp [List.takeWhile_cons, List.dropWhile_cons, hy, this.1, this.2]

/-! ### The characters of the shape text -/

theorem tail_text_chars (ds : List Nat) : ∀ c ∈ tail_text ds, shape_char c = true := by
  induction ds with
  | nil => simp [tail_text]
  | cons d ds ih =>
    intro c hc
    simp only [tail_text, List.mem_cons, List.mem_append] at hc
    rcases hc with rfl | rfl | hc | hc
    · decide
    · decide
    · simp [shape_char, size_t_text_isdigit d c hc]
    · exact ih c hc

theorem shape_text_chars (shape : List Nat) : ∀ c ∈ shape_text shape, shape_char c = true := by
  intro c hc
  unfold shape_text at hc
  rcases List.mem_append.mp hc with h | h
  · cases shape with
    | nil => simp [shape_loop] at h
    | cons d ds =>
      rw [shape_loop_zero_cons] at h
      rcases List.mem_append.mp h with h | h
      · simp [shape_char, size_t_text_isdigit d c h]
      · exact tail_text_chars ds c h
  · split at h
    · have : c = ',' := by simpa using h
      subst this; decide
    · simp at h

theorem shape_char_ne (c x : Char) (h : shape_char c = true) (hx : shape_char x = false) :
    c ≠ x := by
  rintro rfl; simp [h] at hx

/-! ### Decoding the output of `create_header` -/

theorem create_header_split (dtype : List Char) (shape : List Nat) (f : Bool)
    (suffix : List Char) :
    create_header dtype shape f ++ suffix
      = "\x7b'descr': ".toList
          ++ ('\'' :: (dtype ++ '\'' :: ',' :: ' ' :: after_dtype shape f suffix)) := by
  unfold create_header after_dtype shape_text
  cases f <;> simp [List.append_assoc]

theorem shape_text_no_quote (shape : List Nat) : ∀ c ∈ shape_text shape, c ≠ '\'' :=
  fun c hc => shape_char_ne c '\'' (shape_text_chars shape c hc) (by decide)

theorem search_fortran (dtype : List Char) (shape : List Nat) (f : Bool) (suffix : List Char)
    (hq : ∀ c ∈ dtype, c ≠ '\'') :
    regex_search fortran_regex (create_header dtype shape f ++ suffix)
      = some (if f then "True".toList else "False".toList) := by
  rw [create_header_split]
  rw [regex_search_skip _ _ fortran_regex_led _ (by decide)]
  rw [regex_search_cons_none]
  swap
  · apply fortran_regex_led
    have := match_literal_quoted_word "fortran_order".toList (by decide) dtype
      (' ' :: after_dtype shape f suffix) hq
    simpa [match_literal] using this
  rw [regex_search_skip _ _ fortran_regex_led dtype
    (mismatch_everywhere_of_no_quote _ _ hq)]
  have e : '\'' :: ',' :: ' ' :: after_dtype shape f suffix
      = "', ".toList ++ after_dtype shape f suffix := by simp
  rw [e, regex_search_skip _ _ fortran_regex_led _ (by decide)]
  apply regex_search_of_match
  cases f
  · have e2 : after_dtype shape false suffix = "'fortran_order':".toList
        ++ (' ' :: ("False".toList ++ (", 'shape': (".toList ++ shape_text shape
          ++ "), \x7d".toList ++ suffix))) := by
      unfold after_dtype; simp [List.append_assoc]
    rw [e2]
    unfold fortran_regex
    rw [match_literal_append]
    have e3 : ∀ t : List Char, (' ' :: ("False".toList ++ t)).dropWhile isspace
        = "False".toList ++ t := by
      intro t; simp [List.dropWhile_cons, isspace]
    simp only [e3]
    rw [match_literal_mismatch "True".toList "False".toList _ (by decide), match_literal_append]
    rfl
  · have e2 : after_dtype shape true suffix = "'fortran_order':".toList
        ++ (' ' :: ("True".toList ++ (", 'shape': (".toList ++ shape_text shape
          ++ "), \x7d".toList ++ suffix))) := by
      unfold after_dtype; simp [List.append_assoc]
    rw [e2]
    unfold fortran_regex
    rw [match_literal_append]
    have e3 : ∀ t : List Char, (' ' :: ("True".toList ++ t)).dropWhile isspace
        = "True".toList ++ t := by
      intro t; simp [List.dropWhile_cons, isspace]
    simp only [e3]
    rw [match_literal_append]
    rfl

theorem search_shape (dtype : List Char) (shape : List Nat) (f : Bool) (suffix : List Char)
    (hq : ∀ c ∈ dtype, c ≠ '\'') :
    regex_search shape_regex (create_header dtype shape f ++ suffix)
      = some (shape_text shape) := by
  rw [create_header_split]
  rw [regex_search_skip _ _ shape_regex_led _ (by decide)]
  rw [regex_search_cons_none]
  swap
  · apply shape_regex_led
    have := match_literal_quoted_word "shape".toList (by decide) dtype
      (' ' :: after_dtype shape f suffix) hq
    simpa [match_literal] using this
  rw [regex_search_skip _ _ shape_regex_led dtype
    (mismatch_everywhere_of_no_quote _ _ hq)]
  have e : '\'' :: ',' :: ' ' :: after_dtype shape f suffix
      = ("', 'fortran_order': ".toList ++ (if f then "True".toList else "False".toList)
          ++ ", ".toList)
        ++ ("'shape':".toList ++ (' ' :: '(' :: (shape_text shape
          ++ ')' :: (", \x7d".toList ++ suffix)))) := by
    unfold after_dtype; cases f <;> simp [List.append_assoc]
  rw [e, regex_search_skip _ _ shape_regex_led _ (by cases f <;> decide)]
  apply regex_search_of_match
  unfold shape_regex
  rw [match_literal_append]
  have e3 : ∀ t : List Char, (' ' :: '(' :: t).dropWhile isspace = '(' :: t := by
    intro t; simp [List.dropWhile_cons, isspace]
  simp only [e3]
  have hsp := span_until (fun c => c != ')') (shape_text shape) ')' (", \x7d".toList ++ suffix)
    (by
      intro y hy
      have := shape_char_ne y ')' (shape_text_chars shape y hy) (by decide)
      simpa using this)
    (by decide)
  rw [hsp.1, hsp.2]
  rfl

theorem search_dtype (dtype : List Char) (shape : List Nat) (f : Bool) (suffix : List Char)
    (hq : ∀ c ∈ dtype, c ≠ '\'') (hs : ∀ c ∈ suffix, c ≠ '\'') :
    (match regex_search dtype_regex (create_header dtype shape f ++ suffix) with
      | some d => d
      | none => []) = dtype := by
  rw [create_header_split]
  have e0 : "\x7b'descr': ".toList
        ++ ('\'' :: (dtype ++ '\'' :: ',' :: ' ' :: after_dtype shape f suffix))
      = ['\x7b'] ++ ("'descr':".toList
        ++ (' ' :: '\'' :: (dtype ++ '\'' :: ',' :: ' ' :: after_dtype shape f suffix))) := by
    simp
  rw [e0, regex_search_skip _ _ dtype_regex_led _ (by decide)]
  have e3 : ∀ t : List Char, (' ' :: '\'' :: t).dropWhile isspace = '\'' :: t := by
    intro t; simp [List.dropWhile_cons, isspace]
  have hsp := span_until (fun c => c != '\'') dtype '\'' (',' :: ' ' :: after_dtype shape f suffix)
    (by intro y hy; simpa using hq y hy) (by decide)
  cases dtype with
  | cons c cs =>
    rw [regex_search_of_match _ _ (c :: cs)]
    unfold dtype_regex
    rw [match_literal_append]
    simp only [e3]
    rw [hsp.1, hsp.2]
    rfl
  | nil =>
    have hnone : dtype_regex ("'descr':".toList
        ++ (' ' :: '\'' :: ([] ++ '\'' :: ',' :: ' ' :: after_dtype shape f suffix))) = none := by
      unfold dtype_regex
      rw [match_literal_append]
      simp only [e3]
      rw [hsp.1, hsp.2]
    have e4 : "'descr':".toList
        ++ (' ' :: '\'' :: ([] ++ '\'' :: ',' :: ' ' :: after_dtype shape f suffix))
        = '\'' :: (("descr': '', 'fortran_order': ".toList
            ++ (if f then "True".toList else "False".toList) ++ ", 'shape': (".toList)
          ++ ((shape_text shape ++ "), \x7d".toList ++ suffix) ++ [])) := by
      unfold after_dtype; cases f <;> simp [List.append_assoc]
    rw [e4] at hnone ⊢
    rw [regex_search_cons_none _ _ _ hnone]
    rw [regex_search_skip _ _ dtype_regex_led _ (by cases f <;> decide)]
    rw [regex_search_skip _ _ dtype_regex_led _ (mismatch_everywhere_of_no_quote _ _ (by
      intro c hc
      rcases List.mem_append.mp hc with h | h
      · rcases List.mem_append.mp h with h | h
        · exact shape_text_no_quote shape c h
        · intro e; subst e; revert h; decide
      · exact hs c h))]
    rfl

/-- Decoding what `create_header` produced, whatever quote-free text follows it, gives back
the three fields. -/
theorem parse_create_header (u : Bool) (dtype : List Char) (shape : List Nat) (f : Bool)
    (suffix : List Char) (hq : ∀ c ∈ dtype, c ≠ '\'') (hs : ∀ c ∈ suffix, c ≠ '\'')
    (hd : ∀ d ∈ shape, d < SIZE_MOD) :
    parse_header u (create_header dtype shape f ++ suffix)
      = .ok { dtype := dtype, shape := shape, fortran_order := f } := by
  unfold parse_header
  rw [search_dtype dtype shape f suffix hq hs, search_fortran dtype shape f suffix hq,
    search_shape dtype shape f suffix hq]
  simp only [parse_shape_text shape hd]
  cases f <;> simp

/-! ### Bytes, streams and buffers -/

theorem char_ofNat_toNat (k : Nat) (h : k < 256) : (Char.ofNat k).toNat = k := by
  have hv : k.isValidChar := Or.inl (by omega)
  simp [Char.ofNat, hv, Char.toNat, Char.ofNatAux, UInt32.toNat]

theorem little_endian_uint16 (v : Nat) (h : v < 65536) :
    little_endian_value (uint16_bytes v) = v := by
  unfold little_endian_value uint16_bytes
  simp only [List.foldr_cons, List.foldr_nil]
  rw [char_ofNat_toNat _ (Nat.mod_lt _ (by decide)),
    char_ofNat_toNat _ (Nat.mod_lt _ (by decide))]
  omega

theorem read_exact (x rest buf : List Char) (n : Nat) (h : x.length = n) :
    IStream.read { rest := x ++ rest, good := true } n buf
      = (x ++ buf.drop n, { rest := rest, good := true }) := by
  unfold IStream.read
  subst h
  simp

theorem total_size_fold (shape : List Nat) :
    ∀ acc : Nat, shape.foldl (fun total dim => (total * dim) % SIZE_MOD) acc % SIZE_MOD
      = (acc * shape.prod) % SIZE_MOD := by
  induction shape with
  | nil => intro acc; simp
  | cons d ds ih =>
    intro acc
    rw [List.foldl_cons, ih, List.prod_cons, Nat.mod_mul_mod, Nat.mul_assoc]

theorem total_size_lt (shape : List Nat) : total_size shape < SIZE_MOD := by
  unfold total_size
  cases shape using List.reverseRecOn with
  | nil => simp [SIZE_MOD]
  | append_singleton ds d _ =>
    rw [List.foldl_append]
    exact Nat.mod_lt _ (by simp [SIZE_MOD])

theorem total_size_eq (shape : List Nat) : total_size shape = shape.prod % SIZE_MOD := by
  have h := total_size_fold shape 1
  rw [Nat.one_mul] at h
  rw [← h]
  exact (Nat.mod_eq_of_lt (total_size_lt shape)).symm

theorem sizeof_pos (T : DType) : 0 < sizeof T := by
  cases T <;> decide

theorem dtype_string_no_quote (T : DType) : ∀ c ∈ get_dtype_string T, c ≠ '\'' := by
  cases T <;> decide

theorem buffer_bytes_length (size : Nat) (data : List (List Char))
    (h : ∀ e ∈ data, e.length = size) : (buffer_bytes data).length = data.length * size := by
  unfold buffer_bytes
  induction data with
  | nil => simp
  | cons e es ih =>
    rw [List.flatten_cons, List.length_append, ih (fun x hx => h x (List.mem_cons_of_mem _ hx)),
      h e (by simp), List.length_cons]
    ring

theorem buffer_elements_bytes (size : Nat) (data : List (List Char))
    (h : ∀ e ∈ data, e.length = size) (junk : List Char) :
    buffer_elements data.length size (buffer_bytes data ++ junk) = data := by
  unfold buffer_bytes
  induction data with
  | nil => rfl
  | cons e es ih =>
    have he := h e (by simp)
    rw [List.length_cons, buffer_elements, List.flatten_cons, List.append_assoc]
    have h1 : (e ++ (es.flatten ++ junk)).take size = e := by
      rw [← he]; simp
    have h2 : (e ++ (es.flatten ++ junk)).drop size = es.flatten ++ junk := by
      rw [← he]; simp
    rw [h1, h2, ih (fun x hx => h x (List.mem_cons_of_mem _ hx))]

/-! ### Reading the frame of a file -/

theorem read_numpy_array_magic (T : DType) (u : Uninitialised) (rest : List Char) :
    read_numpy_array T u (some (MAGIC ++ rest))
      = read_payload T u (read_frame u rest).1 (read_frame u rest).2 := by
  have e3 : (MAGIC ++ List.drop 6 u.magic).take 6 = MAGIC := by
    simp [MAGIC]
  unfold read_numpy_array
  simp only []
  rw [read_exact MAGIC _ _ 6 rfl]
  simp only [e3, ne_eq, not_true_eq_false, if_false]
  rfl

theorem read_frame_complete (u : Uninitialised) (major minor : Char) (l h p : List Char)
    (hl : l.length = len_field_size major) (hh : h.length = header_len_of major l) :
    read_frame u (major :: minor :: (l ++ (h ++ p))) = (h, { rest := p, good := true }) := by
  have e1 : major :: minor :: (l ++ (h ++ p)) = [major] ++ (minor :: (l ++ (h ++ p))) := rfl
  have e2 : minor :: (l ++ (h ++ p)) = [minor] ++ (l ++ (h ++ p)) := rfl
  have e5 : [major] ++ List.drop 1 [u.major_version] = [major] := by simp
  unfold read_frame read_frame_from
  simp only []
  rw [e1, read_exact [major] _ _ 1 rfl]
  simp only []
  rw [e2, read_exact [minor] _ _ 1 rfl]
  simp only [e5]
  unfold len_field_size at hl
  unfold header_len_of at hh
  by_cases hm : major = Char.ofNat 1
  · simp only [hm, if_true] at hl hh
    have e4 : (l ++ List.drop 2 u.header_len).take 2 = l := by
      rw [List.take_append_of_le_length (by omega), List.take_of_length_le (by omega)]
    simp only [hm, if_true]
    rw [read_exact l _ _ 2 hl]
    simp only [e4]
    rw [read_exact h _ _ _ hh, ← hh]
    simp
  · simp only [hm, if_false] at hl hh
    have hm2 : ¬ [major] = [Char.ofNat 1] := by simpa using hm
    have e4 : (l ++ List.drop 4 u.header_len_32).take 4 = l := by
      rw [List.take_append_of_le_length (by omega), List.take_of_length_le (by omega)]
    simp only [hm2, if_false]
    rw [read_exact l _ _ 4 hl]
    simp only [e4]
    rw [read_exact h _ _ _ hh, ← hh]
    simp

theorem read_framed (T : DType) (u : Uninitialised) (major minor : Char) (l h p : List Char)
    (hl : l.length = len_field_size major) (hh : h.length = header_len_of major l) :
    read_numpy_array T u (some (MAGIC ++ (major :: minor :: (l ++ (h ++ p)))))
      = read_after_header T u h p := by
  rw [read_numpy_array_magic, read_frame_complete u major minor l h p hl hh]
  rfl

/-! ### Reading a version 1 file -/

theorem read_version_1 (T : DType) (u : Uninitialised) (minor : Char)
    (header_str payload : List Char) (h : header_str.length < 65536) :
    read_numpy_array T u (some (MAGIC ++ (Char.ofNat 1 :: minor
        :: (uint16_bytes header_str.length ++ (header_str ++ payload)))))
      = read_after_header T u header_str payload := by
  apply read_framed
  · rfl
  · unfold header_len_of
    simp only [if_true]
    exact (little_endian_uint16 _ h).symm

/-! ### Writing, then reading -/

theorem padding_no_quote (n : Nat) : ∀ c ∈ List.replicate n ' ' ++ ['\n'], c ≠ '\'' := by
  intro c hc
  rcases List.mem_append.mp hc with h | h
  · rw [(List.mem_replicate.mp h).2]; decide
  · rw [List.mem_singleton.mp h]; decide

theorem total_size_in_memory (T : DType) (array : NumpyArray) (hm : InMemory T array)
    (hlen : array.data.length = array.shape.prod) :
    total_size array.shape = array.data.length := by
  have hb := hm.bytes
  have hp := sizeof_pos T
  have hlt : array.data.length < SIZE_MOD := by
    unfold SIZE_MOD
    calc array.data.length = array.data.length * 1 := (Nat.mul_one _).symm
      _ ≤ array.data.length * sizeof T := Nat.mul_le_mul_left _ hp
      _ < 2 ^ 64 := hb
  rw [total_size_eq, ← hlen, Nat.mod_eq_of_lt hlt]

theorem payload_in_memory (T : DType) (array : NumpyArray) (hm : InMemory T array)
    (hlen : array.data.length = array.shape.prod) :
    (buffer_bytes array.data).take ((array.size * sizeof T) % SIZE_MOD)
      = buffer_bytes array.data := by
  have hb : array.data.length * sizeof T < SIZE_MOD := hm.bytes
  unfold NumpyArray.size
  rw [total_size_in_memory T array hm hlen, Nat.mod_eq_of_lt hb,
    ← buffer_bytes_length (sizeof T) array.data hm.elements, List.take_length]

theorem read_after_header_created (T : DType) (u : Uninitialised) (array : NumpyArray)
    (suffix : List Char) (hm : InMemory T array)
    (hlen : array.data.length = array.shape.prod) (hs : ∀ c ∈ suffix, c ≠ '\'') :
    read_after_header T u (create_header (get_dtype_string T) array.shape false ++ suffix)
      (buffer_bytes array.data) = .ok array := by
  have hb : array.data.length * sizeof T < SIZE_MOD := hm.bytes
  unfold read_after_header read_payload
  rw [parse_create_header _ _ _ _ _ (dtype_string_no_quote T) hs hm.dims]
  have ht := total_size_in_memory T array hm hlen
  simp only [NumpyArray.create, ht, Nat.not_le.mpr hb, if_false, NumpyArray.size,
    Nat.mod_eq_of_lt hb]
  have hr := read_exact (buffer_bytes array.data) [] (buffer_bytes
    (List.replicate array.data.length (List.replicate (sizeof T) '\x00')))
    (array.data.length * sizeof T) (buffer_bytes_length (sizeof T) array.data hm.elements)
  rw [List.append_nil] at hr
  rw [hr]
  simp only [if_true]
  rw [buffer_elements_bytes (sizeof T) array.data hm.elements]

theorem padded_header_eq (T : DType) (array : NumpyArray) :
    padded_header T array = create_header (get_dtype_string T) array.shape false
      ++ (List.replicate ((16 - (10 + (create_header (get_dtype_string T) array.shape
          false).length) % 16) % 16) ' ' ++ ['\n']) := by
  unfold padded_header
  have h16 : (16 : Nat) ∣ SIZE_MOD := by unfold SIZE_MOD; decide
  simp only [Nat.mod_mod_of_dvd _ h16, List.append_assoc]

theorem write_bytes (T : DType) (array : NumpyArray)
    (hh : (padded_header T array).length ≤ 65535) :
    write_numpy_array T true array = .ok (MAGIC ++ (Char.ofNat 1 :: Char.ofNat 0
      :: (uint16_bytes (padded_header T array).length ++ (padded_header T array
        ++ (buffer_bytes array.data).take ((array.size * sizeof T) % SIZE_MOD))))) := by
  have hl : (padded_header T array).length % 65536 = (padded_header T array).length :=
    Nat.mod_eq_of_lt (by omega)
  unfold write_numpy_array written_header_len
  simp [hl]

/-- A written array is read back: the shared core of the file round trip. -/
theorem read_write (T : DType) (u : Uninitialised) (array : NumpyArray)
    (hm : InMemory T array) (hlen : array.data.length = array.shape.prod)
    (hh : (padded_header T array).length ≤ 65535) :
    ∃ file, write_numpy_array T true array = .ok file
      ∧ read_numpy_array T u (some file) = .ok array := by
  refine ⟨_, write_bytes T array hh, ?_⟩
  rw [read_version_1 T u _ _ _ (by omega), payload_in_memory T array hm hlen, padded_header_eq]
  exact read_after_header_created T u array _ hm hlen (padding_no_quote _)

/-! ## Header round trip and file round trip -/

/-- C1: for every dtype tag of the supported set ("<f4", "<f8", "<i4", "<i8", "<u4", "<u8",
"<f2"), every shape whose dimensions are below 2^64 (any number of dimensions, zero
dimensions and zero extents included) and both values of `fortran_order`, `parse_header`
applied to the output of `create_header` returns the header with that dtype, shape and flag,
whatever the uninitialised flag member held. -/
theorem header_roundtrip_supported (u : Bool) (dtype : List Char) (shape : List Nat) (f : Bool)
    (hdtype : dtype ∈ supported_tags) (hshape : ∀ d ∈ shape, d < 2 ^ 64) :
    parse_header u (create_header dtype shape f)
      = .ok { dtype := dtype, shape := shape, fortran_order := f } := by
  have hq : ∀ t ∈ supported_tags, ∀ c ∈ t, c ≠ '\'' := by decide
  have h := parse_create_header u dtype shape f [] (hq dtype hdtype) (by simp) hshape
  rwa [List.append_nil] at h

/-- The header round trip at the tag `<f2`, a shape with a zero extent and the largest
`size_t`, and the flag true. -/
theorem header_roundtrip_supported_witness :
    parse_header true (create_header "<f2".toList [3, 0, 18446744073709551615, 5, 1] true)
      = .ok { dtype := "<f2".toList, shape := [3, 0, 18446744073709551615, 5, 1],
              fortran_order := true } :=
  header_roundtrip_supported true "<f2".toList [3, 0, 18446744073709551615, 5, 1] true
    (by decide) (by decide)

/-- C2, as stated, fails: the dtype tag `a'b` is encoded as `'descr': 'a'b'`, and decoding
stops the tag at the first quote, so the header read back has dtype `a`. -/
theorem header_roundtrip_any_dtype_counterexample :
    parse_header false (create_header "a'b".toList [2, 3] false)
        = .ok { dtype := "a".toList, shape := [2, 3], fortran_order := false }
      ∧ parse_header false (create_header "a'b".toList [2, 3] false)
        ≠ .ok { dtype := "a'b".toList, shape := [2, 3], fortran_order := false } := by
  decide

/-- C2, amended: for any dtype tag without a single-quote character (the empty tag
included), any shape whose dimensions are below 2^64 and any flag, `parse_header` applied
to the output of `create_header` returns that dtype, shape and flag. -/
theorem header_roundtrip_quote_free (u : Bool) (dtype : List Char) (shape : List Nat)
    (f : Bool) (hdtype : ∀ c ∈ dtype, c ≠ '\'') (hshape : ∀ d ∈ shape, d < 2 ^ 64) :
    parse_header u (create_header dtype shape f)
      = .ok { dtype := dtype, shape := shape, fortran_order := f } := by
  have h := parse_create_header u dtype shape f [] hdtype (by simp) hshape
  rwa [List.append_nil] at h

/-- The header round trip at a tag outside the supported set. -/
theorem header_roundtrip_quote_free_witness :
    parse_header true (create_header "|V16 (x)".toList [4] false)
      = .ok { dtype := "|V16 (x)".toList, shape := [4], fortran_order := false } :=
  header_roundtrip_quote_free true "|V16 (x)".toList [4] false (by decide) (by decide)

/-- C3: for every supported element type and every array in memory whose data length is the
product of its shape and whose padded header has at most 65535 bytes, `write_numpy_array`
produces a file from which `read_numpy_array` of the same type returns that array: the same
shape and the same elements in the same order. -/
theorem file_roundtrip (T : DType) (u : Uninitialised) (array : NumpyArray)
    (hm : InMemory T array) (hlen : array.data.length = array.shape.prod)
    (hh : (padded_header T array).length ≤ 65535) :
    ∃ file, write_numpy_array T true array = .ok file
      ∧ read_numpy_array T u (some file) = .ok array :=
  read_write T u array hm hlen hh

/-- The file round trip at the 2 x 3 float array with the values 1.0 to 6.0. -/
theorem file_roundtrip_witness :
    ∃ file, write_numpy_array DType.float true floats_2x3 = .ok file
      ∧ read_numpy_array DType.float stale (some file) = .ok floats_2x3 :=
  file_roundtrip DType.float stale floats_2x3 ⟨by decide, by decide, by decide⟩ (by decide)
    (by decide)

theorem padded_header_length (T : DType) (array : NumpyArray) :
    (10 + (padded_header T array).length) % 16 = 1 := by
  rw [padded_header_eq]
  simp only [List.length_append, List.length_replicate, List.length_singleton]
  omega

/-- C4 fails on the code: the padding is computed before the newline is appended, so the
header length stored in the file makes the preamble one byte longer than a multiple of 16.
For the 2 x 3 float array the stored length is 71 and 8 + 2 + 71 = 81; for every element
type and every array the remainder of 8 + 2 + stored length modulo 16 is 1, never 0. -/
theorem preamble_one_past_alignment :
    written_header_len DType.float floats_2x3 = 71
      ∧ (8 + 2 + written_header_len DType.float floats_2x3) % 16 = 1
      ∧ ∀ (T : DType) (array : NumpyArray), (8 + 2 + written_header_len T array) % 16 = 1 := by
  refine ⟨by decide, by decide, ?_⟩
  intro T array
  have h := padded_header_length T array
  unfold written_header_len
  omega

/-! ### Malformed and absent fields -/

/-- C6 fails on the code for the flag: `parse_header` never gives `fortran_order` a value
when the text has no such entry, and the struct member has no initialiser, so for a text
with only a shape entry the returned flag is whatever the member held before (`u`), which
need not be false. The dtype is the empty string and no error is raised. -/
theorem absent_fortran_order_is_stale :
    (∀ u : Bool, parse_header u shape_only_header
        = .ok { dtype := [], shape := [3], fortran_order := u })
      ∧ parse_header true shape_only_header
        ≠ .ok { dtype := [], shape := [3], fortran_order := false } := by
  decide

theorem absent_dtype_default (u : Bool) (header_str : List Char) (h : NumpyHeader)
    (habsent : regex_search dtype_regex header_str = none)
    (hok : parse_header u header_str = .ok h) : h.dtype = [] := by
  unfold parse_header at hok
  simp only [habsent] at hok
  split at hok
  · split at hok
    · cases hok
    · injection hok with hok; rw [← hok]
  · injection hok with hok; rw [← hok]

theorem absent_fortran_order_stale (u : Bool) (header_str : List Char) (h : NumpyHeader)
    (habsent : regex_search fortran_regex header_str = none)
    (hok : parse_header u header_str = .ok h) : h.fortran_order = u := by
  unfold parse_header at hok
  simp only [habsent] at hok
  split at hok
  · split at hok
    · cases hok
    · injection hok with hok; rw [← hok]
  · injection hok with hok; rw [← hok]

theorem absent_shape_default (u : Bool) (header_str : List Char)
    (habsent : regex_search shape_regex header_str = none) :
    ∃ h, parse_header u header_str = .ok h ∧ h.shape = [] := by
  unfold parse_header
  simp only [habsent]
  exact ⟨_, rfl, rfl⟩

/-- C7: for every file content of at least 6 bytes whose first 6 bytes are not the magic
string, `read_numpy_array` fails with the format error, whatever the element type, the
remaining bytes and the stale memory are. -/
theorem bad_magic_rejected (T : DType) (u : Uninitialised) (content : List Char)
    (hlen : 6 ≤ content.length) (hmagic : content.take 6 ≠ MAGIC) :
    read_numpy_array T u (some content) = .error .invalid_format := by
  unfold read_numpy_array
  simp only [IStream.read, if_true, hlen]
  have e : (content.take 6 ++ u.magic.drop 6).take 6 = content.take 6 := by
    rw [List.take_append_of_le_length (by simp [hlen])]
    simp
  simp only [e, ne_eq, hmagic, not_false_eq_true, if_true]

/-- A file that starts with `\x93NUMPX` is rejected with the format error. -/
theorem bad_magic_rejected_witness :
    read_numpy_array DType.float stale
      (some ("\x93NUMPX\x01\x00\x02\x00\x7b\n".toList)) = .error .invalid_format :=
  bad_magic_rejected DType.float stale _ (by decide) (by decide)

/-! ### The layout of what is written -/

theorem intercalate_size_t_text (d : Nat) (ds : List Nat) :
    List.intercalate ", ".toList ((d :: ds).map size_t_text) = size_t_text d ++ tail_text ds := by
  induction ds generalizing d with
  | nil => simp [List.intercalate, tail_text]
  | cons d2 ds ih =>
    have e : List.intercalate ", ".toList ((d :: d2 :: ds).map size_t_text)
        = size_t_text d ++ (", ".toList ++ List.intercalate ", ".toList
          ((d2 :: ds).map size_t_text)) := by
      simp [List.intercalate]
    rw [e, ih, tail_text]
    simp

theorem shape_loop_intercalate (shape : List Nat) :
    shape_loop 0 shape = List.intercalate ", ".toList (shape.map size_t_text) := by
  cases shape with
  | nil => simp [shape_loop, List.intercalate]
  | cons d ds => rw [shape_loop_zero_cons, intercalate_size_t_text]

theorem size_t_text_no_leading_zero (d : Nat) :
    size_t_text d = ['0'] ∨ (size_t_text d).head? ≠ some '0' := by
  rcases Nat.eq_zero_or_pos d with h | h
  · left; rw [h]; exact size_t_text_zero
  · right
    obtain ⟨k, rest, hk, hk10, e⟩ := size_t_text_head d h
    rw [e]
    simpa using digitChar_ne_zero k hk10 hk

/-- C8: in the output of `create_header` the shape tuple is an opening parenthesis, the
dimensions in order joined by `", "`, one more comma exactly when there is one dimension, and
a closing parenthesis; each dimension is decimal text, that is digits only, with the
dimension as value and no leading zero. The shape `[]` gives `()`, `[7]` gives `(7,)` and
not `(7)`, and `[2, 3]` gives `(2, 3)`. -/
theorem shape_tuple_format :
    (∀ (dtype : List Char) (shape : List Nat) (f : Bool),
        create_header dtype shape f
          = "\x7b'descr': '".toList ++ dtype ++ "', 'fortran_order': ".toList
            ++ (if f then "True".toList else "False".toList) ++ ", 'shape': ".toList
            ++ spec_shape_tuple shape ++ ", \x7d".toList)
      ∧ (∀ d : Nat, (∀ c ∈ size_t_text d, isdigit c = true)
          ∧ digits_value (size_t_text d) = d
          ∧ (size_t_text d = ['0'] ∨ (size_t_text d).head? ≠ some '0'))
      ∧ spec_shape_tuple [] = "()".toList
      ∧ spec_shape_tuple [7] = "(7,)".toList
      ∧ spec_shape_tuple [2, 3] = "(2, 3)".toList
      ∧ "(7,)".toList <:+: create_header "<f4".toList [7] false
      ∧ ¬ ("(7)".toList <:+: create_header "<f4".toList [7] false)
      ∧ "(2, 3)".toList <:+: create_header "<i8".toList [2, 3] false := by
  refine ⟨?_, ?_, by decide, by decide, by decide, by decide, by decide, by decide⟩
  · intro dtype shape f
    unfold create_header spec_shape_tuple
    rw [shape_loop_intercalate]
    simp [List.append_assoc]
  · intro d
    exact ⟨size_t_text_isdigit d, size_t_text_value d, size_t_text_no_leading_zero d⟩

/-- C9: for every supported element type and every array in memory whose buffer holds
`size()` elements and whose padded header has at most 65535 bytes, the bytes written are, in
this order: the magic string, the version bytes 1 and 0, the header length as two bytes with
the low byte first, that many bytes of header text made of the output of `create_header` for
the type's tag, the array's shape and the flag false, then the space padding and one
newline, and last the `size() * sizeof(T)` bytes of the data buffer. -/
theorem written_layout (T : DType) (array : NumpyArray) (hm : InMemory T array)
    (hsize : array.data.length = array.size)
    (hh : (padded_header T array).length ≤ 65535) :
    ∃ (HL padding : Nat) (payload : List Char),
      write_numpy_array T true array
          = .ok (['\x93', 'N', 'U', 'M', 'P', 'Y'] ++ [Char.ofNat 1, Char.ofNat 0]
              ++ [Char.ofNat (HL % 256), Char.ofNat (HL / 256)]
              ++ (create_header (get_dtype_string T) array.shape false
                  ++ List.replicate padding ' ' ++ ['\n'])
              ++ payload)
        ∧ HL = (create_header (get_dtype_string T) array.shape false).length + padding + 1
        ∧ HL < 65536
        ∧ little_endian_value [Char.ofNat (HL % 256), Char.ofNat (HL / 256)] = HL
        ∧ payload = array.data.flatten
        ∧ payload.length = array.size * sizeof T := by
  have hb : array.data.length * sizeof T < SIZE_MOD := hm.bytes
  have hpay : (buffer_bytes array.data).take ((array.size * sizeof T) % SIZE_MOD)
      = buffer_bytes array.data := by
    rw [← hsize, Nat.mod_eq_of_lt hb, ← buffer_bytes_length (sizeof T) array.data hm.elements,
      List.take_length]
  have hHL : (padded_header T array).length < 65536 := by omega
  have hdiv : (padded_header T array).length / 256 % 256 = (padded_header T array).length / 256 := by
    apply Nat.mod_eq_of_lt; omega
  refine ⟨(padded_header T array).length,
    spec_padding (create_header (get_dtype_string T) array.shape false).length,
    buffer_bytes array.data, ?_, ?_, hHL, ?_, rfl, ?_⟩
  · rw [write_bytes T array hh, hpay]
    simp only [uint16_bytes, hdiv, MAGIC]
    rw [padded_header_eq]
    simp [List.append_assoc, spec_padding]
  · rw [padded_header_eq]
    simp only [List.length_append, List.length_replicate, List.length_singleton, spec_padding]
    omega
  · have := little_endian_uint16 _ hHL
    simpa only [uint16_bytes, hdiv] using this
  · rw [buffer_bytes_length (sizeof T) array.data hm.elements, hsize]

/-- The layout of the file written for the 2 x 3 float array. -/
theorem written_layout_witness :
    ∃ (HL padding : Nat) (payload : List Char),
      write_numpy_array DType.float true floats_2x3
          = .ok (['\x93', 'N', 'U', 'M', 'P', 'Y'] ++ [Char.ofNat 1, Char.ofNat 0]
              ++ [Char.ofNat (HL % 256), Char.ofNat (HL / 256)]
              ++ (create_header (get_dtype_string DType.float) floats_2x3.shape false
                  ++ List.replicate padding ' ' ++ ['\n'])
              ++ payload)
        ∧ HL = (create_header (get_dtype_string DType.float) floats_2x3.shape false).length
            + padding + 1
        ∧ HL < 65536
        ∧ little_endian_value [Char.ofNat (HL % 256), Char.ofNat (HL / 256)] = HL
        ∧ payload = floats_2x3.data.flatten
        ∧ payload.length = floats_2x3.size * sizeof DType.float :=
  written_layout DType.float floats_2x3 ⟨by decide, by decide, by decide⟩ (by decide)
    (by decide)

theorem floats_4d_data_length : floats_4d.data.length = 2400000 :=
  List.length_replicate _ _

theorem floats_4d_in_memory : InMemory DType.float floats_4d := by
  refine ⟨fun e he => ?_, by decide, ?_⟩
  · have he2 : e ∈ List.replicate 2400000 ['\x00', '\x00', '\x00', '\x00'] := he
    rw [List.eq_of_mem_replicate he2]; rfl
  · rw [floats_4d_data_length]
    decide

theorem floats_4d_length : floats_4d.data.length = floats_4d.shape.prod := by
  rw [floats_4d_data_length]
  decide

/-- C10: the header text `write_numpy_array` stores is the output of `create_header`, then
`(16 - (10 + header_len) mod 16) mod 16` spaces, then the newline, where `header_len` is
the length of that output. The number of spaces is at most 15, and it is 0 exactly when
`10 + header_len` is a multiple of 16; in that case the newline follows the header text
directly and an array in memory whose data length is the product of its shape is still
read back from the written file. -/
theorem padding_length (T : DType) (array : NumpyArray) :
    padded_header T array
        = create_header (get_dtype_string T) array.shape false
          ++ List.replicate
            (spec_padding (create_header (get_dtype_string T) array.shape false).length) ' '
          ++ ['\n']
      ∧ spec_padding (create_header (get_dtype_string T) array.shape false).length ≤ 15
      ∧ (spec_padding (create_header (get_dtype_string T) array.shape false).length = 0
          ↔ (10 + (create_header (get_dtype_string T) array.shape false).length) % 16 = 0)
      ∧ (spec_padding (create_header (get_dtype_string T) array.shape false).length = 0 →
          InMemory T array → array.data.length = array.shape.prod →
          (padded_header T array).length ≤ 65535 →
          padded_header T array
              = create_header (get_dtype_string T) array.shape false ++ ['\n']
            ∧ ∀ u : Uninitialised, ∃ file, write_numpy_array T true array = .ok file
                ∧ read_numpy_array T u (some file) = .ok array) := by
  have hp := padded_header_eq T array
  refine ⟨?_, ?_, ?_, ?_⟩
  · rw [hp]; simp [spec_padding, List.append_assoc]
  · unfold spec_padding; omega
  · unfold spec_padding; omega
  · intro h0 hm hlen hh
    refine ⟨?_, fun u => read_write T u array hm hlen hh⟩
    rw [hp]
    unfold spec_padding at h0
    rw [h0]
    rfl

/-- For the float shape 10 x 20 x 30 x 400 the header text has 70 characters, no space is
inserted, and the written file reads back. -/
theorem padding_length_witness :
    spec_padding (create_header (get_dtype_string DType.float) floats_4d.shape false).length = 0
      ∧ padded_header DType.float floats_4d
          = create_header (get_dtype_string DType.float) floats_4d.shape false ++ ['\n']
      ∧ ∃ file, write_numpy_array DType.float true floats_4d = .ok file
          ∧ read_numpy_array DType.float stale (some file) = .ok floats_4d :=
  ⟨by decide,
    ((padding_length DType.float floats_4d).2.2.2 (by decide) floats_4d_in_memory
      floats_4d_length (by decide)).1,
    ((padding_length DType.float floats_4d).2.2.2 (by decide) floats_4d_in_memory
      floats_4d_length (by decide)).2 stale⟩

/-! ### Files that end early -/

theorem read_bad (st : IStream) (n : Nat) (buf : List Char) (h : st.good = false) :
    st.read n buf = (buf, st) := by
  unfold IStream.read
  simp [h]

theorem read_short (r : List Char) (n : Nat) (buf : List Char) (h : r.length < n) :
    IStream.read { rest := r, good := true } n buf
      = (r ++ buf.drop r.length, { rest := [], good := false }) := by
  unfold IStream.read
  simp [Nat.not_le.mpr h]

theorem read_full (r : List Char) (n : Nat) (buf : List Char) (h : n ≤ r.length) :
    IStream.read { rest := r, good := true } n buf
      = (r.take n ++ buf.drop n, { rest := r.drop n, good := true }) := by
  unfold IStream.read
  simp [h]

theorem read_payload_bad (T : DType) (u : Uninitialised) (header_str : List Char)
    (st5 : IStream) (h : st5.good = false) :
    ∃ e, read_payload T u header_str st5 = .error e := by
  unfold read_payload
  cases parse_header u.fortran_order header_str with
  | error e => exact ⟨e, rfl⟩
  | ok header =>
    simp only []
    cases NumpyArray.create T header.shape with
    | error e => exact ⟨e, rfl⟩
    | ok array =>
      simp only [read_bad _ _ _ h, h]
      exact ⟨_, rfl⟩

/-- A stream that is still good after the header text has delivered the two version bytes,
a complete length field and a complete header text. -/
theorem read_frame_good (u : Uninitialised) (rest : List Char)
    (h : (read_frame u rest).2.good = true) :
    ∃ major minor l hd p, rest = major :: minor :: (l ++ (hd ++ p))
      ∧ l.length = len_field_size major ∧ hd.length = header_len_of major l := by
  cases rest with
  | nil =>
    exfalso
    unfold read_frame read_frame_from at h
    simp only [read_short [] 1 _ (by decide)] at h
    split_ifs at h <;> simp [read_bad] at h
  | cons major r1 =>
    cases r1 with
    | nil =>
      exfalso
      unfold read_frame read_frame_from at h
      simp only [read_full [major] 1 _ (by simp), List.take, List.drop,
        read_short [] 1 _ (by decide)] at h
      split_ifs at h <;> simp [read_bad] at h
    | cons minor r2 =>
      have e5 : [major] ++ List.drop 1 [u.major_version] = [major] := by simp
      have key : len_field_size major ≤ r2.length
          ∧ header_len_of major (r2.take (len_field_size major))
            ≤ (r2.drop (len_field_size major)).length := by
        unfold read_frame read_frame_from at h
        simp only [read_full (major :: minor :: r2) 1 _ (by simp), List.take, List.drop,
          read_full (minor :: r2) 1 _ (by simp), e5] at h
        unfold len_field_size header_len_of
        by_cases hm : major = Char.ofNat 1
        · simp only [hm, if_true] at h ⊢
          by_cases h2 : 2 ≤ r2.length
          · refine ⟨h2, ?_⟩
            have e4 : (r2.take 2 ++ List.drop 2 u.header_len).take 2 = r2.take 2 := by
              rw [List.take_append_of_le_length (by simp [h2]),
                List.take_of_length_le (by simp)]
            simp only [read_full r2 2 _ h2, e4] at h
            by_contra hc
            simp [read_short _ _ _ (Nat.not_le.mp hc)] at h
          · exfalso
            simp [read_short _ _ _ (Nat.not_le.mp h2), read_bad] at h
        · have hm2 : ¬ ([major] ++ [] = [Char.ofNat 1]) := by simpa using hm
          simp only [if_neg hm2] at h
          simp only [hm, if_false]
          by_cases h2 : 4 ≤ r2.length
          · refine ⟨h2, ?_⟩
            have e4 : (r2.take 4 ++ List.drop 4 u.header_len_32).take 4 = r2.take 4 := by
              rw [List.take_append_of_le_length (by simp [h2]),
                List.take_of_length_le (by simp)]
            simp only [read_full r2 4 _ h2, e4] at h
            by_contra hc
            simp [read_short _ _ _ (Nat.not_le.mp hc)] at h
          · exfalso
            simp [read_short _ _ _ (Nat.not_le.mp h2), read_bad] at h
      refine ⟨major, minor, r2.take (len_field_size major),
        (r2.drop (len_field_size major)).take
          (header_len_of major (r2.take (len_field_size major))),
        (r2.drop (len_field_size major)).drop
          (header_len_of major (r2.take (len_field_size major))), ?_, ?_, ?_⟩
      · simp
      · simp [key.1]
      · have := key.2
        rw [List.length_drop] at this
        simp [this]

theorem read_frame_truncated (u : Uninitialised) (rest : List Char)
    (htrunc : rest.length < 2
      ∨ (∃ major minor l, rest = major :: minor :: l ∧ l.length < len_field_size major)
      ∨ (∃ major minor l hd, rest = major :: minor :: (l ++ hd)
          ∧ l.length = len_field_size major ∧ hd.length < header_len_of major l)) :
    (read_frame u rest).2.good = false := by
  by_contra hg
  have hg2 : (read_frame u rest).2.good = true := by simpa using hg
  obtain ⟨major, minor, l, hd, p, hrest, hl, hh⟩ := read_frame_good u rest hg2
  rcases htrunc with h1 | ⟨major2, minor2, l2, e2, h2⟩ | ⟨major2, minor2, l2, hd2, e2, hl2, h2⟩
  · rw [hrest] at h1
    simp only [List.length_cons, List.length_append] at h1
    omega
  · rw [hrest] at e2
    simp only [List.cons.injEq] at e2
    obtain ⟨rfl, -, e2⟩ := e2
    have : l2.length = l.length + (hd.length + p.length) := by rw [← e2]; simp
    omega
  · rw [hrest] at e2
    simp only [List.cons.injEq] at e2
    obtain ⟨rfl, -, e2⟩ := e2
    have hll : l.length = l2.length := by rw [hl, hl2]
    have e3 := List.append_inj e2 hll
    obtain ⟨rfl, e4⟩ := e3
    have : hd2.length = hd.length + p.length := by rw [← e4]; simp
    omega

/-! ### The dtype table and the length field -/

/-- C12: `get_dtype_string` is defined on each of the seven supported element types and
returns `<f4` for float, `<f8` for double, `<i4` for int32, `<i8` for int64, `<u4` for
uint32, `<u8` for uint64 and `<f2` for the half-precision float; the seven tags are
pairwise distinct, each has three characters and begins with `<`, and the last character
of each tag is the digit of the element size in bytes. -/
theorem dtype_table :
    get_dtype_string DType.float = "<f4".toList
      ∧ get_dtype_string DType.double = "<f8".toList
      ∧ get_dtype_string DType.int32_t = "<i4".toList
      ∧ get_dtype_string DType.int64_t = "<i8".toList
      ∧ get_dtype_string DType.uint32_t = "<u4".toList
      ∧ get_dtype_string DType.uint64_t = "<u8".toList
      ∧ get_dtype_string DType.MLFloat16 = "<f2".toList
      ∧ (∀ T : DType, T ∈ all_types)
      ∧ (all_types.map get_dtype_string).Nodup
      ∧ all_types.map get_dtype_string = supported_tags
      ∧ (∀ T : DType, (get_dtype_string T).length = 3
          ∧ (get_dtype_string T).head? = some '<'
          ∧ (get_dtype_string T).getLast? = some (Nat.digitChar (sizeof T))) := by
  refine ⟨rfl, rfl, rfl, rfl, rfl, rfl, rfl, ?_, by decide, by decide, ?_⟩
  · intro T; cases T <;> decide
  · intro T; cases T <;> decide

/-- C14: in a file whose major version byte is 1 the header length is the little-endian
value of the 2 bytes at offset 8 and the header text is made of the bytes that follow; in a
file whose major version byte is not 1 the header length is `L mod 65536` for the
little-endian value `L` of the 4 bytes at offset 8, and the header text is made of the
`L mod 65536` bytes at offset 12. In both cases the text is decoded and the payload is read
from the bytes directly after it. -/
theorem header_length_field (T : DType) (u : Uninitialised) (major minor : Char)
    (l hd p : List Char) :
    (MAGIC ++ [major, minor]).length = 8
      ∧ (major = Char.ofNat 1 → l.length = 2 → hd.length = little_endian_value l →
          read_numpy_array T u (some (MAGIC ++ (major :: minor :: (l ++ (hd ++ p)))))
            = read_after_header T u hd p)
      ∧ (major ≠ Char.ofNat 1 → l.length = 4 → hd.length = little_endian_value l % 65536 →
          read_numpy_array T u (some (MAGIC ++ (major :: minor :: (l ++ (hd ++ p)))))
            = read_after_header T u hd p) := by
  refine ⟨rfl, ?_, ?_⟩
  · intro hm hl hh
    apply read_framed
    · simp [len_field_size, hm, hl]
    · simp [header_len_of, hm, hh]
  · intro hm hl hh
    apply read_framed
    · simp [len_field_size, hm, hl]
    · simp [header_len_of, hm, hh]

/-- A version 2.0 file whose length field holds 65536 + 71 is read with a header text of 71
bytes, and gives the 2 x 3 float array. -/
theorem header_length_field_witness :
    read_numpy_array DType.float stale (some version_2_file)
        = read_after_header DType.float stale (padded_header DType.float floats_2x3)
            (buffer_bytes floats_2x3.data)
      ∧ read_after_header DType.float stale (padded_header DType.float floats_2x3)
            (buffer_bytes floats_2x3.data) = .ok floats_2x3 :=
  ⟨(header_length_field DType.float stale (Char.ofNat 2) (Char.ofNat 0)
      [Char.ofNat 71, Char.ofNat 0, Char.ofNat 1, Char.ofNat 0]
      (padded_header DType.float floats_2x3) (buffer_bytes floats_2x3.data)).2.2
      (by decide) (by decide) (by decide),
   by decide⟩

/-! ### What the reader does not look at -/

theorem parse_header_shape_only (u : Bool) (h1 h2 : List Char)
    (hs : regex_search shape_regex h1 = regex_search shape_regex h2) :
    (∀ e, parse_header u h1 = .error e → parse_header u h2 = .error e)
      ∧ (∀ r1, parse_header u h1 = .ok r1 →
          ∃ r2, parse_header u h2 = .ok r2 ∧ r2.shape = r1.shape) := by
  unfold parse_header
  simp only []
  rw [hs]
  cases regex_search shape_regex h2 with
  | none =>
    constructor
    · intro e h; cases h
    · intro r1 h
      injection h with h
      exact ⟨_, rfl, by rw [← h]⟩
  | some shape_str =>
    simp only []
    cases parse_shape_items (getline_items shape_str) [] with
    | error e0 =>
      constructor
      · intro e h; exact h
      · intro r1 h; cases h
    | ok shape =>
      constructor
      · intro e h; cases h
      · intro r1 h
        injection h with h
        exact ⟨_, rfl, by rw [← h]⟩

theorem read_after_header_shape_only (T : DType) (u : Uninitialised) (h1 h2 p : List Char)
    (hs : regex_search shape_regex h1 = regex_search shape_regex h2) :
    read_after_header T u h1 p = read_after_header T u h2 p := by
  have key := parse_header_shape_only u.fortran_order h1 h2 hs
  unfold read_after_header read_payload
  cases hp : parse_header u.fortran_order h1 with
  | error e => rw [key.1 e hp]
  | ok r1 =>
    obtain ⟨r2, hp2, hshape⟩ := key.2 r1 hp
    rw [hp2]
    simp only [hshape]

/-- C16: `read_numpy_array<T>` looks at nothing in the header text but the shape. For two
files with the same version bytes, the same length field, header texts of the same length in
which the shape pattern finds the same text, and the same payload, whatever the `descr` and
`fortran_order` entries of the two header texts are, it gives the same outcome: the same
array or the same failure. -/
theorem dtype_not_checked (T : DType) (u : Uninitialised) (major minor : Char)
    (l h1 h2 p : List Char) (hl : l.length = len_field_size major)
    (hh1 : h1.length = header_len_of major l) (hh2 : h2.length = h1.length)
    (hs : regex_search shape_regex h1 = regex_search shape_regex h2) :
    read_numpy_array T u (some (MAGIC ++ (major :: minor :: (l ++ (h1 ++ p)))))
      = read_numpy_array T u (some (MAGIC ++ (major :: minor :: (l ++ (h2 ++ p))))) := by
  rw [read_framed T u major minor l h1 p hl hh1,
    read_framed T u major minor l h2 p hl (by rw [hh2, hh1])]
  exact read_after_header_shape_only T u h1 h2 p hs

/-- The file written for the 2 x 3 float array and the same file with the tag `<i8` and the
flag `True` are read to the same array by `read_numpy_array<float>`. -/
theorem dtype_not_checked_witness :
    read_numpy_array DType.float stale (some (MAGIC ++ (Char.ofNat 1 :: Char.ofNat 0
        :: (uint16_bytes 71 ++ (padded_header DType.float floats_2x3
          ++ buffer_bytes floats_2x3.data)))))
      = read_numpy_array DType.float stale (some (MAGIC ++ (Char.ofNat 1 :: Char.ofNat 0
        :: (uint16_bytes 71 ++ (retagged_header ++ buffer_bytes floats_2x3.data))))) :=
  dtype_not_checked DType.float stale (Char.ofNat 1) (Char.ofNat 0) (uint16_bytes 71)
    (padded_header DType.float floats_2x3) retagged_header (buffer_bytes floats_2x3.data)
    (by decide) (by decide) (by decide) (by decide)

/-! ### The grammar of the header text -/

/-- C17, as stated, fails: `create_header` does not put the closing brace directly after the
shape tuple. For the tag `<f4` and the shape `[2, 3]` the output ends with `(2, 3), ` and
the brace, not with `(2, 3)` and the brace. -/
theorem header_grammar_counterexample :
    create_header "<f4".toList [2, 3] false
        = "\x7b'descr': '<f4', 'fortran_order': False, 'shape': (2, 3), \x7d".toList
      ∧ spec_header_text "<f4".toList [2, 3] false
        = "\x7b'descr': '<f4', 'fortran_order': False, 'shape': (2, 3)\x7d".toList
      ∧ create_header "<f4".toList [2, 3] false ≠ spec_header_text "<f4".toList [2, 3] false := by
  decide

/-- C17, amended: for every dtype, shape and flag the output of `create_header` is exactly
the opening brace, `'descr': '<dtype>'`, `'fortran_order': <True|False>` and
`'shape': <shape tuple>`, in this order, each of the three followed by a comma and a space,
and then the closing brace; the brace is the last character, with no newline or padding
after it. -/
theorem header_grammar (dtype : List Char) (shape : List Nat) (f : Bool) :
    create_header dtype shape f
        = "\x7b".toList
          ++ ("'descr': '".toList ++ dtype ++ "'".toList) ++ ", ".toList
          ++ ("'fortran_order': ".toList ++ (if f then "True".toList else "False".toList))
          ++ ", ".toList
          ++ ("'shape': ".toList ++ spec_shape_tuple shape) ++ ", ".toList
          ++ "\x7d".toList
      ∧ (create_header dtype shape f).getLast? = some '\x7d' := by
  constructor
  · unfold create_header spec_shape_tuple
    rw [shape_loop_intercalate]
    cases f <;> simp [List.append_assoc]
  · have e : "), \x7d".toList = "), ".toList ++ ['\x7d'] := rfl
    unfold create_header
    rw [e, ← List.append_assoc]
    exact List.getLast?_concat _

/-! ### The size of the data buffer -/

theorem buffer_elements_length (count size : Nat) :
    ∀ bytes : List Char, (buffer_elements count size bytes).length = count := by
  induction count with
  | zero => intro bytes; rfl
  | succ n ih => intro bytes; simp [buffer_elements, ih]

theorem create_ok (T : DType) (shape : List Nat) (array : NumpyArray)
    (h : NumpyArray.create T shape = .ok array) :
    array.shape = shape ∧ array.data.length = total_size shape := by
  unfold NumpyArray.create at h
  split_ifs at h
  injection h with h
  rw [← h]
  simp

theorem read_payload_ok (T : DType) (u : Uninitialised) (header_str : List Char)
    (st5 : IStream) (array : NumpyArray) (h : read_payload T u header_str st5 = .ok array) :
    array.data.length = total_size array.shape := by
  unfold read_payload at h
  cases hp : parse_header u.fortran_order header_str with
  | error e => rw [hp] at h; cases h
  | ok header =>
    rw [hp] at h
    simp only [] at h
    cases hc : NumpyArray.create T header.shape with
    | error e => rw [hc] at h; cases h
    | ok a0 =>
      rw [hc] at h
      simp only [] at h
      split_ifs at h
      injection h with h
      rw [← h]
      simp [buffer_elements_length]

theorem read_frame_from_bad (u : Uninitialised) (st1 : IStream) (h : st1.good = false) :
    (read_frame_from u st1).2.good = false := by
  unfold read_frame_from
  simp only [read_bad st1 _ _ h]
  split_ifs <;> simp [read_bad st1 _ _ h, h]

theorem read_numpy_array_split (T : DType) (u : Uninitialised) (content : List Char) :
    read_numpy_array T u (some content)
      = if (IStream.read { rest := content, good := true } 6 u.magic).1.take 6 ≠ MAGIC then
          .error .invalid_format
        else
          read_payload T u
            (read_frame_from u (IStream.read { rest := content, good := true } 6 u.magic).2).1
            (read_frame_from u (IStream.read { rest := content, good := true } 6 u.magic).2).2 := by
  rfl

theorem read_short_magic (T : DType) (u : Uninitialised) (content : List Char)
    (hlen : content.length < 6) : ∃ e, read_numpy_array T u (some content) = .error e := by
  rw [read_numpy_array_split]
  split_ifs with hm
  · exact ⟨_, rfl⟩
  · apply read_payload_bad
    apply read_frame_from_bad
    rw [read_short content 6 _ hlen]

theorem read_wrong_magic (T : DType) (u : Uninitialised) (content : List Char)
    (hlen : 6 ≤ content.length) (hmagic : content.take 6 ≠ MAGIC) :
    read_numpy_array T u (some content) = .error .invalid_format := by
  unfold read_numpy_array
  simp only [IStream.read, if_true, hlen]
  have e : (content.take 6 ++ u.magic.drop 6).take 6 = content.take 6 := by
    rw [List.take_append_of_le_length (by simp [hlen])]
    simp
  simp only [e, ne_eq, hmagic, not_false_eq_true, if_true]

theorem read_ok_length (T : DType) (u : Uninitialised) (file : Option (List Char))
    (array : NumpyArray) (h : read_numpy_array T u file = .ok array) :
    array.data.length = total_size array.shape := by
  cases file with
  | none => cases h
  | some content =>
    by_cases hlen : 6 ≤ content.length
    · by_cases hmagic : content.take 6 = MAGIC
      · have e : content = MAGIC ++ content.drop 6 := by
          rw [← hmagic, List.take_append_drop]
        rw [e, read_numpy_array_magic] at h
        exact read_payload_ok T u _ _ array h
      · rw [read_wrong_magic T u content hlen hmagic] at h
        cases h
    · obtain ⟨e, he⟩ := read_short_magic T u content (Nat.not_le.mp hlen)
      rw [he] at h
      cases h

/-- C18, as stated, fails: for the shape `[4294967296, 4294967296]` the constructor builds
an array with an empty data buffer and `size()` returns 0, while the product of the
dimensions is 2^64: the product is computed in `size_t` and wraps. -/
theorem buffer_length_counterexample :
    NumpyArray.create DType.float [4294967296, 4294967296]
        = .ok { data := [], shape := [4294967296, 4294967296] }
      ∧ NumpyArray.size { data := [], shape := [4294967296, 4294967296] } = 0
      ∧ [4294967296, 4294967296].prod = 18446744073709551616
      ∧ ([] : List (List Char)).length ≠ [4294967296, 4294967296].prod := by
  decide

/-- C18, amended: for every shape, the array built by `NumpyArray(shape)`, and every array
returned by `read_numpy_array`, has a data buffer whose length is the product of the
shape's dimensions reduced modulo 2^64, hence the product itself when it is below 2^64, 1
for the empty shape and 0 when a dimension is 0; `size()` returns that same number. -/
theorem buffer_length (T : DType) (shape : List Nat) (array : NumpyArray)
    (h : NumpyArray.create T shape = .ok array) :
    array.data.length = shape.prod % 2 ^ 64
      ∧ array.size = array.data.length
      ∧ (shape.prod < 2 ^ 64 → array.data.length = shape.prod)
      ∧ (shape = [] → array.data.length = 1)
      ∧ (0 ∈ shape → array.data.length = 0)
      ∧ ∀ (u : Uninitialised) (file : Option (List Char)) (result : NumpyArray),
          read_numpy_array T u file = .ok result →
          result.data.length = result.shape.prod % 2 ^ 64
            ∧ result.size = result.data.length := by
  obtain ⟨hs, hl⟩ := create_ok T shape array h
  have hmod : array.data.length = shape.prod % 2 ^ 64 := by
    rw [hl, total_size_eq]; rfl
  refine ⟨hmod, ?_, ?_, ?_, ?_, ?_⟩
  · rw [NumpyArray.size, hs, hl]
  · intro hlt
    rw [hmod, Nat.mod_eq_of_lt hlt]
  · intro he
    rw [hmod, he]
    rfl
  · intro h0
    rw [hmod, List.prod_eq_zero h0]
    rfl
  · intro u file result hr
    have hlen := read_ok_length T u file result hr
    constructor
    · rw [hlen, total_size_eq]; rfl
    · rw [NumpyArray.size, hlen]

/-- The array built for the shape `[2, 3]` has six elements. -/
theorem buffer_length_witness :
    NumpyArray.create DType.float [2, 3] = .ok zeros_2x3
      ∧ zeros_2x3.data.length = [2, 3].prod % 2 ^ 64
      ∧ zeros_2x3.size = zeros_2x3.data.length
      ∧ zeros_2x3.data.length = [2, 3].prod :=
  ⟨by decide, (buffer_length DType.float [2, 3] zeros_2x3 (by decide)).1,
    (buffer_length DType.float [2, 3] zeros_2x3 (by decide)).2.1,
    (buffer_length DType.float [2, 3] zeros_2x3 (by decide)).2.2.1 (by decide)⟩

/-! ### The header length field for long header texts -/

theorem tail_text_ones_length (k : Nat) : (tail_text (List.replicate k 1)).length = 3 * k := by
  induction k with
  | zero => rfl
  | succ k ih =>
    have e : size_t_text 1 = ['1'] := by decide
    rw [List.replicate_succ, tail_text, e]
    simp only [List.length_cons, List.length_append, List.length_nil, ih]
    omega

theorem create_header_ones_length (T : DType) (k : Nat) :
    (create_header (get_dtype_string T) (1 :: List.replicate (k + 1) 1) false).length
      = 59 + 3 * k := by
  have e : size_t_text 1 = ['1'] := by decide
  have ht : (get_dtype_string T).length = 3 := by cases T <;> rfl
  have hl : (1 :: List.replicate (k + 1) 1).length ≠ 1 := by simp
  unfold create_header
  rw [shape_loop_zero_cons, e, if_neg hl]
  simp only [List.length_append, tail_text_ones_length, ht]
  simp
  omega

theorem ones_prod (k : Nat) : (List.replicate k 1).prod = 1 := by
  induction k with
  | zero => rfl
  | succ k ih => rw [List.replicate_succ, List.prod_cons, ih]

theorem size_eq (array : NumpyArray) : array.size = total_size array.shape := rfl

theorem written_header_len_eq (T : DType) (array : NumpyArray) :
    written_header_len T array = (padded_header T array).length % 65536 := rfl

theorem wide_array_header_length :
    (create_header (get_dtype_string DType.float) wide_array.shape false).length = 65753 :=
  create_header_ones_length DType.float 21898

theorem wide_array_padded_length : (padded_header DType.float wide_array).length = 65767 := by
  rw [padded_header_eq]
  simp only [List.length_append, List.length_replicate, List.length_singleton,
    wide_array_header_length]

/-- C19, as stated, fails: for a float array with 21900 dimensions of extent 1 (and one
element) the padded header text has 65767 characters, the length field written is
65767 mod 65536 = 231, and only the first 231 characters of the text are written. That
block ends with a space, not with the newline, and `parse_header` decodes it to the empty
shape. -/
theorem long_header_counterexample :
    InMemory DType.float wide_array
      ∧ wide_array.data.length = wide_array.size
      ∧ (padded_header DType.float wide_array).length = 65767
      ∧ written_header_len DType.float wide_array = 231
      ∧ ((padded_header DType.float wide_array).take 231).getLast? = some ' '
      ∧ parse_header true ((padded_header DType.float wide_array).take 231)
          = .ok { dtype := "<f4".toList, shape := [], fortran_order := false } := by
  refine ⟨⟨by decide, ?_, by decide⟩, ?_, wide_array_padded_length, ?_, by decide, by decide⟩
  · intro d hd
    have hd2 : d ∈ 1 :: List.replicate 21899 1 := hd
    rcases List.mem_cons.mp hd2 with h | h
    · rw [h]; decide
    · rw [List.eq_of_mem_replicate h]; decide
  · have hp : wide_array.shape.prod = 1 := by
      show (1 :: List.replicate 21899 1).prod = 1
      rw [List.prod_cons, ones_prod]
    rw [size_eq, total_size_eq, hp]
    rfl
  · rw [written_header_len_eq, wide_array_padded_length]

/-- C19, amended: for every array whose padded header text has at most 65535 characters,
whatever the number of dimensions of its shape (each below 2^64), the header length field
written by `write_numpy_array` is the full length of the padded header text (the output of
`create_header`, the padding spaces and the newline) and all of that text is written after
it, so that the header block in the file ends with the newline and `parse_header` decodes
it to the array's shape. -/
theorem header_block_complete (T : DType) (array : NumpyArray)
    (hdims : ∀ d ∈ array.shape, d < 2 ^ 64)
    (hh : (padded_header T array).length ≤ 65535) :
    written_header_len T array = (padded_header T array).length
      ∧ little_endian_value (uint16_bytes (written_header_len T array))
          = (padded_header T array).length
      ∧ (∃ payload, write_numpy_array T true array
          = .ok (MAGIC ++ (Char.ofNat 1 :: Char.ofNat 0
              :: (uint16_bytes (written_header_len T array)
                ++ (padded_header T array ++ payload)))))
      ∧ (padded_header T array).getLast? = some '\n'
      ∧ ∀ u : Bool, parse_header u (padded_header T array)
          = .ok { dtype := get_dtype_string T, shape := array.shape, fortran_order := false } := by
  have hl : written_header_len T array = (padded_header T array).length := by
    unfold written_header_len
    exact Nat.mod_eq_of_lt (by omega)
  refine ⟨hl, ?_, ?_, ?_, ?_⟩
  · rw [hl]
    exact little_endian_uint16 _ (by omega)
  · rw [hl]
    exact ⟨_, write_bytes T array hh⟩
  · rw [padded_header_eq, ← List.append_assoc]
    exact List.getLast?_concat _
  · intro u
    rw [padded_header_eq]
    exact parse_create_header u _ _ false _ (dtype_string_no_quote T) (padding_no_quote _) hdims

/-- The header block written for the 2 x 3 float array has the 71 bytes announced by the
length field, ends with the newline and decodes to the shape `[2, 3]`. -/
theorem header_block_complete_witness :
    written_header_len DType.float floats_2x3 = (padded_header DType.float floats_2x3).length
      ∧ (padded_header DType.float floats_2x3).getLast? = some '\n'
      ∧ parse_header true (padded_header DType.float floats_2x3)
          = .ok { dtype := get_dtype_string DType.float, shape := floats_2x3.shape,
                  fortran_order := false } :=
  ⟨(header_block_complete DType.float floats_2x3 (by decide) (by decide)).1,
    (header_block_complete DType.float floats_2x3 (by decide) (by decide)).2.2.2.1,
    (header_block_complete DType.float floats_2x3 (by decide) (by decide)).2.2.2.2 true⟩

/-! ### Shape lists with blanks and empty tokens -/

theorem dropWhile_append_all (p : Char → Bool) (x y : List Char) (h : ∀ c ∈ x, p c = true) :
    (x ++ y).dropWhile p = y.dropWhile p := by
  induction x with
  | nil => rfl
  | cons c cs ih =>
    rw [List.cons_append, List.dropWhile_cons, h c (by simp)]
    simp only [if_true]
    exact ih (fun z hz => h z (List.mem_cons_of_mem _ hz))

theorem dropWhile_all (p : Char → Bool) (x : List Char) (h : ∀ c ∈ x, p c = true) :
    x.dropWhile p = [] := by
  have := dropWhile_append_all p x [] h
  simpa using this

theorem trim_item_token (b ds a : List Char) (hb : ∀ c ∈ b, is_blank c = true)
    (hds : ∀ c ∈ ds, isdigit c = true) (ha : ∀ c ∈ a, is_blank c = true) :
    trim_item (b ++ ds ++ a) = ds := by
  unfold trim_item
  rw [List.append_assoc, dropWhile_append_all _ _ _ hb]
  cases ds with
  | nil =>
    rw [List.nil_append, dropWhile_all _ _ ha]
    rfl
  | cons d ds2 =>
    have hd : is_blank d = false := isdigit_not_blank d (hds d (by simp))
    have e1 : (d :: ds2 ++ a).dropWhile is_blank = d :: ds2 ++ a := by
      simp [List.dropWhile_cons, hd]
    rw [e1, List.reverse_append,
      dropWhile_append_all _ _ _ (fun c hc => ha c (List.mem_reverse.mp hc)),
      dropWhile_blank_digits _ (fun c hc => hds c (List.mem_reverse.mp hc)),
      List.reverse_reverse]

theorem valid_parts (t : ShapeToken) (h : t.valid = true) :
    (∀ c ∈ t.before, is_blank c = true) ∧ (∀ c ∈ t.digits, isdigit c = true)
      ∧ (∀ c ∈ t.after, is_blank c = true) ∧ digits_value t.digits < 2 ^ 64 := by
  unfold ShapeToken.valid at h
  simp only [Bool.and_eq_true, List.all_eq_true, decide_eq_true_eq] at h
  exact ⟨h.1.1.1, h.1.1.2, h.1.2, h.2⟩

theorem token_text_no_comma (t : ShapeToken) (h : t.valid = true) :
    ∀ c ∈ t.text, c ≠ ',' := by
  obtain ⟨hb, hd, ha, _⟩ := valid_parts t h
  have hblank : ∀ c, is_blank c = true → c ≠ ',' := by
    intro c hc e; subst e; revert hc; decide
  intro c hc
  unfold ShapeToken.text at hc
  rcases List.mem_append.mp hc with h1 | h1
  · rcases List.mem_append.mp h1 with h2 | h2
    · exact hblank c (hb c h2)
    · exact isdigit_ne_comma c (hd c h2)
  · exact hblank c (ha c h1)

theorem parse_shape_items_tokens (ts : List ShapeToken) (h : ∀ t ∈ ts, t.valid = true) :
    ∀ acc : List Nat,
      parse_shape_items (ts.map ShapeToken.text) acc = .ok (acc ++ expected_shape ts) := by
  induction ts with
  | nil => intro acc; simp [parse_shape_items, expected_shape]
  | cons t ts ih =>
    intro acc
    obtain ⟨hb, hd, ha, hv⟩ := valid_parts t (h t (by simp))
    have ih2 := ih (fun x hx => h x (List.mem_cons_of_mem _ hx))
    rw [List.map_cons, parse_shape_items]
    simp only [ShapeToken.text, trim_item_token _ _ _ hb hd ha]
    cases hds : t.digits with
    | nil =>
      simp only [if_true]
      rw [ih2]
      simp [expected_shape, hds]
    | cons d ds2 =>
      have hne : t.digits ≠ [] := by rw [hds]; simp
      have hst := stoull_digits t.digits hne hd hv
      rw [hds] at hst
      simp only [hst, List.cons_ne_nil, if_false]
      rw [ih2]
      simp [expected_shape, hds]

theorem intercalate_cons_cons (x y : List Char) (ys : List (List Char)) :
    List.intercalate ",".toList (x :: y :: ys)
      = x ++ ',' :: List.intercalate ",".toList (y :: ys) := by
  simp [List.intercalate]

theorem parse_shape_items_getline (xs : List (List Char))
    (h : ∀ x ∈ xs, ∀ c ∈ x, c ≠ ',') :
    ∀ acc : List Nat,
      parse_shape_items (getline_items (List.intercalate ",".toList xs)) acc
        = parse_shape_items xs acc := by
  induction xs with
  | nil => intro acc; simp [List.intercalate, getline_items, getline_loop]
  | cons x xs ih =>
    intro acc
    have hx := h x (by simp)
    cases xs with
    | nil =>
      have e : List.intercalate ",".toList [x] = x ++ [] := by simp [List.intercalate]
      unfold getline_items
      rw [e, getline_loop_append x hx]
      cases x with
      | nil => simp [getline_loop, parse_shape_items, trim_item]
      | cons c cs => simp [getline_loop]
    | cons y ys =>
      have ih2 := ih (fun z hz => h z (List.mem_cons_of_mem _ hz))
      unfold getline_items at ih2 ⊢
      rw [intercalate_cons_cons, getline_loop_append x hx, getline_loop]
      simp only [if_true, List.append_nil, List.reverse_reverse]
      rw [parse_shape_items, parse_shape_items]
      simp only [ih2]

/-- C13: for every header text in which the shape pattern finds a list of comma-separated
tokens that are each empty, made of spaces and tabs only, or a decimal integer below 2^64
with any number of spaces and tabs around it, `parse_header` succeeds and returns as shape
the values of the integer tokens in their textual order, the other tokens being skipped. -/
theorem shape_tokens_parsed (u : Bool) (header_str : List Char) (ts : List ShapeToken)
    (hshape : regex_search shape_regex header_str = some (join_tokens ts))
    (hvalid : ∀ t ∈ ts, t.valid = true) :
    ∃ h, parse_header u header_str = .ok h ∧ h.shape = expected_shape ts := by
  have hc : ∀ x ∈ ts.map ShapeToken.text, ∀ c ∈ x, c ≠ ',' := by
    intro x hx
    obtain ⟨t, ht, rfl⟩ := List.mem_map.mp hx
    exact token_text_no_comma t (hvalid t ht)
  unfold parse_header
  simp only [hshape]
  unfold join_tokens
  rw [parse_shape_items_getline _ hc, parse_shape_items_tokens ts hvalid]
  exact ⟨_, rfl, by simp⟩

/-- The shape lists `(5,)`, `( 2 ,3, )` and `()` decode to `[5]`, `[2, 3]` and `[]`. -/
theorem shape_tokens_parsed_witness :
    (∃ h, parse_header true "\x7b'shape': (5,)\x7d".toList = .ok h ∧ h.shape = [5])
      ∧ (∃ h, parse_header true "\x7b'shape': ( 2 ,3, )\x7d".toList = .ok h
          ∧ h.shape = [2, 3])
      ∧ (∃ h, parse_header true "\x7b'shape': ()\x7d".toList = .ok h ∧ h.shape = []) :=
  ⟨shape_tokens_parsed true "\x7b'shape': (5,)\x7d".toList
      [⟨[], ['5'], []⟩, ⟨[], [], []⟩] (by decide) (by decide),
    shape_tokens_parsed true "\x7b'shape': ( 2 ,3, )\x7d".toList
      [⟨[' '], ['2'], [' ']⟩, ⟨[], ['3'], []⟩, ⟨[' '], [], []⟩] (by decide) (by decide),
    shape_tokens_parsed true "\x7b'shape': ()\x7d".toList [] (by decide) (by decide)⟩

/-! ### Entries in any order -/

theorem mismatch_append (lit : List Char) :
    ∀ (pre s : List Char), mismatch lit pre = true → mismatch lit (pre ++ s) = true := by
  induction lit with
  | nil => intro pre s h; simp [mismatch] at h
  | cons p ps ih =>
    intro pre s h
    cases pre with
    | nil => simp [mismatch] at h
    | cons c cs =>
      rw [List.cons_append, mismatch]
      by_cases hpc : p = c
      · simp only [hpc, if_true]
        apply ih
        simpa [mismatch, hpc] using h
      · simp [hpc]

theorem mismatch_everywhere_append (lit pre rest : List Char)
    (h1 : mismatch_everywhere lit pre = true) (h2 : mismatch_everywhere lit rest = true) :
    mismatch_everywhere lit (pre ++ rest) = true := by
  induction pre with
  | nil => exact h2
  | cons c cs ih =>
    simp only [mismatch_everywhere, Bool.and_eq_true] at h1
    rw [List.cons_append, mismatch_everywhere, Bool.and_eq_true]
    exact ⟨mismatch_append lit (c :: cs) rest h1.1, ih h1.2⟩

theorem shape_entry_skipped (lit : List Char) (dims : List Nat)
    (h : mismatch_everywhere ('\'' :: lit) "'shape': (".toList = true) :
    mismatch_everywhere ('\'' :: lit) ((Entry.shape dims).text ++ ", ".toList) = true := by
  unfold Entry.text
  rw [List.append_assoc, List.append_assoc]
  apply mismatch_everywhere_append _ _ _ h
  apply mismatch_everywhere_of_no_quote
  intro c hc
  rcases List.mem_append.mp hc with h1 | h1
  · exact shape_text_no_quote dims c h1
  · intro e; subst e; revert h1; decide

theorem descr_entry_skipped (lit : List Char) (tag : List Char) (ht : tag ∈ supported_tags)
    (h : ∀ t ∈ supported_tags,
      mismatch_everywhere lit ((Entry.descr t).text ++ ", ".toList) = true) :
    mismatch_everywhere lit ((Entry.descr tag).text ++ ", ".toList) = true :=
  h tag ht

theorem dtype_regex_entry (tag rest : List Char) (hq : ∀ c ∈ tag, c ≠ '\'')
    (hne : tag ≠ []) : dtype_regex ((Entry.descr tag).text ++ rest) = some tag := by
  have e0 : (Entry.descr tag).text ++ rest
      = "'descr':".toList ++ (' ' :: '\'' :: (tag ++ '\'' :: rest)) := by
    unfold Entry.text; simp [List.append_assoc]
  have e3 : ∀ t : List Char, (' ' :: '\'' :: t).dropWhile isspace = '\'' :: t := by
    intro t; simp [List.dropWhile_cons, isspace]
  have hsp := span_until (fun c => c != '\'') tag '\'' rest
    (by intro y hy; simpa using hq y hy) (by decide)
  obtain ⟨c, cs, rfl⟩ := List.exists_cons_of_ne_nil hne
  rw [e0]
  unfold dtype_regex
  rw [match_literal_append]
  simp only [e3]
  rw [hsp.1, hsp.2]
  rfl

theorem fortran_regex_entry (flag : Bool) (rest : List Char) :
    fortran_regex ((Entry.fortran_order flag).text ++ rest)
      = some (if flag then "True".toList else "False".toList) := by
  have e3 : ∀ t : List Char, (' ' :: t).dropWhile isspace = t.dropWhile isspace := by
    intro t; simp [List.dropWhile_cons, isspace]
  cases flag
  · have e0 : (Entry.fortran_order false).text ++ rest
        = "'fortran_order':".toList ++ (' ' :: ("False".toList ++ rest)) := by
      unfold Entry.text; simp [List.append_assoc]
    have e4 : ("False".toList ++ rest).dropWhile isspace = "False".toList ++ rest := by
      simp [List.dropWhile_cons, isspace]
    rw [e0]
    unfold fortran_regex
    rw [match_literal_append]
    simp only [e3, e4]
    rw [match_literal_mismatch "True".toList "False".toList _ (by decide), match_literal_append]
    rfl
  · have e0 : (Entry.fortran_order true).text ++ rest
        = "'fortran_order':".toList ++ (' ' :: ("True".toList ++ rest)) := by
      unfold Entry.text; simp [List.append_assoc]
    have e4 : ("True".toList ++ rest).dropWhile isspace = "True".toList ++ rest := by
      simp [List.dropWhile_cons, isspace]
    rw [e0]
    unfold fortran_regex
    rw [match_literal_append]
    simp only [e3, e4]
    rw [match_literal_append]
    rfl

theorem shape_regex_entry (dims : List Nat) (rest : List Char) :
    shape_regex ((Entry.shape dims).text ++ rest) = some (shape_text dims) := by
  have e0 : (Entry.shape dims).text ++ rest
      = "'shape':".toList ++ (' ' :: '(' :: (shape_text dims ++ ')' :: rest)) := by
    unfold Entry.text; simp [List.append_assoc]
  have e3 : ∀ t : List Char, (' ' :: '(' :: t).dropWhile isspace = '(' :: t := by
    intro t; simp [List.dropWhile_cons, isspace]
  have hsp := span_until (fun c => c != ')') (shape_text dims) ')' rest
    (by
      intro y hy
      have := shape_char_ne y ')' (shape_text_chars dims y hy) (by decide)
      simpa using this)
    (by decide)
  rw [e0]
  unfold shape_regex
  rw [match_literal_append]
  simp only [e3]
  rw [hsp.1, hsp.2]
  rfl

theorem supported_tag_facts (tag : List Char) (h : tag ∈ supported_tags) :
    (∀ c ∈ tag, c ≠ '\'') ∧ tag ≠ [] := by
  have hall : ∀ t ∈ supported_tags, (∀ c ∈ t, c ≠ '\'') ∧ t ≠ [] := by decide
  exact hall tag h

theorem search_dtype_entries (es : List Entry) (hs : ∀ e ∈ es, e.supported) :
    regex_search dtype_regex (entries_text es ++ "\x7d".toList) = first_descr es := by
  induction es with
  | nil =>
    have := regex_search_skip _ _ dtype_regex_led "\x7d".toList (by decide) []
    rw [List.append_nil] at this
    rw [entries_text, List.nil_append, this]
    rfl
  | cons e es ih =>
    have ih2 := ih (fun x hx => hs x (List.mem_cons_of_mem _ hx))
    have he := hs e (by simp)
    rw [entries_text, List.append_assoc]
    cases e with
    | descr tag =>
      obtain ⟨hq, hne⟩ := supported_tag_facts tag he
      rw [List.append_assoc]
      exact regex_search_of_match _ _ _ (dtype_regex_entry tag _ hq hne)
    | fortran_order flag =>
      rw [regex_search_skip _ _ dtype_regex_led _ (by cases flag <;> decide), ih2]
      rfl
    | shape dims =>
      rw [regex_search_skip _ _ dtype_regex_led _ (shape_entry_skipped _ dims (by decide)), ih2]
      rfl

theorem search_fortran_entries (es : List Entry) (hs : ∀ e ∈ es, e.supported) :
    regex_search fortran_regex (entries_text es ++ "\x7d".toList)
      = (first_fortran_order es).map
          (fun flag => if flag then "True".toList else "False".toList) := by
  induction es with
  | nil =>
    have := regex_search_skip _ _ fortran_regex_led "\x7d".toList (by decide) []
    rw [List.append_nil] at this
    rw [entries_text, List.nil_append, this]
    rfl
  | cons e es ih =>
    have ih2 := ih (fun x hx => hs x (List.mem_cons_of_mem _ hx))
    have he := hs e (by simp)
    rw [entries_text, List.append_assoc]
    cases e with
    | descr tag =>
      have hall : ∀ t ∈ supported_tags, mismatch_everywhere "'fortran_order':".toList
          ((Entry.descr t).text ++ ", ".toList) = true := by decide
      rw [regex_search_skip _ _ fortran_regex_led _ (hall tag he), ih2]
      rfl
    | fortran_order flag =>
      rw [List.append_assoc]
      exact regex_search_of_match _ _ _ (fortran_regex_entry flag _)
    | shape dims =>
      rw [regex_search_skip _ _ fortran_regex_led _ (shape_entry_skipped _ dims (by decide)),
        ih2]
      rfl

theorem search_shape_entries (es : List Entry) (hs : ∀ e ∈ es, e.supported) :
    regex_search shape_regex (entries_text es ++ "\x7d".toList)
      = (first_shape es).map shape_text := by
  induction es with
  | nil =>
    have := regex_search_skip _ _ shape_regex_led "\x7d".toList (by decide) []
    rw [List.append_nil] at this
    rw [entries_text, List.nil_append, this]
    rfl
  | cons e es ih =>
    have ih2 := ih (fun x hx => hs x (List.mem_cons_of_mem _ hx))
    have he := hs e (by simp)
    rw [entries_text, List.append_assoc]
    cases e with
    | descr tag =>
      have hall : ∀ t ∈ supported_tags, mismatch_everywhere "'shape':".toList
          ((Entry.descr t).text ++ ", ".toList) = true := by decide
      rw [regex_search_skip _ _ shape_regex_led _ (hall tag he), ih2]
      rfl
    | fortran_order flag =>
      rw [regex_search_skip _ _ shape_regex_led _ (by cases flag <;> decide), ih2]
      rfl
    | shape dims =>
      rw [List.append_assoc]
      exact regex_search_of_match _ _ _ (shape_regex_entry dims _)

theorem first_shape_supported (es : List Entry) (hs : ∀ e ∈ es, e.supported)
    (dims : List Nat) (h : first_shape es = some dims) : ∀ d ∈ dims, d < SIZE_MOD := by
  induction es with
  | nil => cases h
  | cons e es ih =>
    have ih2 := ih (fun x hx => hs x (List.mem_cons_of_mem _ hx))
    cases e with
    | descr tag => exact ih2 h
    | fortran_order flag => exact ih2 h
    | shape dims2 =>
      have he : (Entry.shape dims2).supported := hs _ (by simp)
      injection h with h
      rw [← h]
      exact he

/-- The entries of a dictionary literal are decoded independently: each field of the header
comes from the first entry of its kind, and a field without an entry keeps what the header
record held before, that is the empty string, the empty shape and, for the flag, the stale
value `u`. -/
theorem entries_decoded (u : Bool) (es : List Entry) (hs : ∀ e ∈ es, e.supported) :
    parse_header u (dict_text es)
      = .ok { dtype := (first_descr es).getD [], shape := (first_shape es).getD [],
              fortran_order := (first_fortran_order es).getD u } := by
  have e1 : regex_search dtype_regex (dict_text es) = first_descr es := by
    unfold dict_text
    rw [List.append_assoc, regex_search_skip _ _ dtype_regex_led _ (by decide),
      search_dtype_entries es hs]
  have e2 : regex_search fortran_regex (dict_text es)
      = (first_fortran_order es).map
          (fun flag => if flag then "True".toList else "False".toList) := by
    unfold dict_text
    rw [List.append_assoc, regex_search_skip _ _ fortran_regex_led _ (by decide),
      search_fortran_entries es hs]
  have e3 : regex_search shape_regex (dict_text es) = (first_shape es).map shape_text := by
    unfold dict_text
    rw [List.append_assoc, regex_search_skip _ _ shape_regex_led _ (by decide),
      search_shape_entries es hs]
  unfold parse_header
  rw [e1, e2, e3]
  have hd : (match first_descr es with
      | some d => d
      | none => []) = (first_descr es).getD [] := by
    cases first_descr es <;> rfl
  have hf : (match Option.map (fun flag => if flag = true then "True".toList
        else "False".toList) (first_fortran_order es) with
      | some m => decide (m = "True".toList)
      | none => u) = (first_fortran_order es).getD u := by
    cases first_fortran_order es with
    | none => rfl
    | some flag => cases flag <;> rfl
  simp only [hd, hf]
  cases hsh : first_shape es with
  | none => rfl
  | some dims =>
    simp only [Option.map_some', parse_shape_text dims (first_shape_supported es hs dims hsh)]
    rfl

theorem create_header_dict (dtype : List Char) (shape : List Nat) (f : Bool) :
    create_header dtype shape f
      = dict_text [Entry.descr dtype, Entry.fortran_order f, Entry.shape shape] := by
  unfold create_header dict_text
  simp only [entries_text, Entry.text, shape_text]
  cases f <;> simp [List.append_assoc]

theorem first_descr_unique (es : List Entry) (tag : List Char) (hmem : Entry.descr tag ∈ es)
    (hall : ∀ t, Entry.descr t ∈ es → t = tag) : first_descr es = some tag := by
  induction es with
  | nil => simp at hmem
  | cons e es ih =>
    cases e with
    | descr t =>
      have := hall t (by simp)
      rw [this]; rfl
    | fortran_order flag =>
      have hm : Entry.descr tag ∈ es := by simpa using hmem
      exact ih hm (fun t ht => hall t (List.mem_cons_of_mem _ ht))
    | shape dims =>
      have hm : Entry.descr tag ∈ es := by simpa using hmem
      exact ih hm (fun t ht => hall t (List.mem_cons_of_mem _ ht))

theorem first_fortran_order_unique (es : List Entry) (flag : Bool)
    (hmem : Entry.fortran_order flag ∈ es)
    (hall : ∀ t, Entry.fortran_order t ∈ es → t = flag) :
    first_fortran_order es = some flag := by
  induction es with
  | nil => simp at hmem
  | cons e es ih =>
    cases e with
    | fortran_order t =>
      have := hall t (by simp)
      rw [this]; rfl
    | descr t =>
      have hm : Entry.fortran_order flag ∈ es := by simpa using hmem
      exact ih hm (fun t ht => hall t (List.mem_cons_of_mem _ ht))
    | shape dims =>
      have hm : Entry.fortran_order flag ∈ es := by simpa using hmem
      exact ih hm (fun t ht => hall t (List.mem_cons_of_mem _ ht))

theorem first_shape_unique (es : List Entry) (dims : List Nat)
    (hmem : Entry.shape dims ∈ es) (hall : ∀ t, Entry.shape t ∈ es → t = dims) :
    first_shape es = some dims := by
  induction es with
  | nil => simp at hmem
  | cons e es ih =>
    cases e with
    | shape t =>
      have := hall t (by simp)
      rw [this]; rfl
    | descr t =>
      have hm : Entry.shape dims ∈ es := by simpa using hmem
      exact ih hm (fun t ht => hall t (List.mem_cons_of_mem _ ht))
    | fortran_order flag =>
      have hm : Entry.shape dims ∈ es := by simpa using hmem
      exact ih hm (fun t ht => hall t (List.mem_cons_of_mem _ ht))

/-- Every ordering of the three entries decodes to the same header record. -/
theorem entries_any_order (u : Bool) (tag : List Char) (dims : List Nat) (f : Bool)
    (ht : tag ∈ supported_tags) (hd : ∀ d ∈ dims, d < 2 ^ 64) (es : List Entry)
    (hperm : es.Perm [Entry.descr tag, Entry.fortran_order f, Entry.shape dims]) :
    parse_header u (dict_text es)
      = .ok { dtype := tag, shape := dims, fortran_order := f } := by
  have hmem : ∀ e, e ∈ es ↔ e ∈ [Entry.descr tag, Entry.fortran_order f, Entry.shape dims] :=
    fun e => hperm.mem_iff
  have hs : ∀ e ∈ es, e.supported := by
    intro e he
    have := (hmem e).mp he
    simp only [List.mem_cons, List.mem_singleton, List.not_mem_nil, or_false] at this
    rcases this with rfl | rfl | rfl
    · exact ht
    · trivial
    · exact hd
  have h1 : first_descr es = some tag :=
    first_descr_unique es tag ((hmem _).mpr (by simp))
      (fun t h => by have := (hmem _).mp h; simpa using this)
  have h2 : first_fortran_order es = some f :=
    first_fortran_order_unique es f ((hmem _).mpr (by simp))
      (fun t h => by have := (hmem _).mp h; simpa using this)
  have h3 : first_shape es = some dims :=
    first_shape_unique es dims ((hmem _).mpr (by simp))
      (fun t h => by have := (hmem _).mp h; simpa using this)
  rw [entries_decoded u es hs, h1, h2, h3]
  rfl

/-- C15 fails on the code where the `fortran_order` entry is removed. For the tag `<f4`,
the shape `[2, 3]` and the flag true, the six orderings of the three entries decode to the
same header record, removing the `descr` entry gives the empty dtype and removing the
`shape` entry gives the empty shape, the other fields unchanged; removing the
`fortran_order` entry leaves the flag with the stale value `u` of the uninitialised member,
which is not the default false when `u` is true. -/
theorem removed_fortran_order_is_stale :
    (∀ es ∈ [[Entry.descr "<f4".toList, Entry.fortran_order true, Entry.shape [2, 3]],
              [Entry.descr "<f4".toList, Entry.shape [2, 3], Entry.fortran_order true],
              [Entry.fortran_order true, Entry.descr "<f4".toList, Entry.shape [2, 3]],
              [Entry.fortran_order true, Entry.shape [2, 3], Entry.descr "<f4".toList],
              [Entry.shape [2, 3], Entry.descr "<f4".toList, Entry.fortran_order true],
              [Entry.shape [2, 3], Entry.fortran_order true, Entry.descr "<f4".toList]],
        ∀ u : Bool, parse_header u (dict_text es)
          = .ok { dtype := "<f4".toList, shape := [2, 3], fortran_order := true })
      ∧ (∀ u : Bool,
          parse_header u (dict_text [Entry.fortran_order true, Entry.shape [2, 3]])
            = .ok { dtype := [], shape := [2, 3], fortran_order := true })
      ∧ (∀ u : Bool,
          parse_header u (dict_text [Entry.descr "<f4".toList, Entry.fortran_order true])
            = .ok { dtype := "<f4".toList, shape := [], fortran_order := true })
      ∧ dict_text [Entry.descr "<f4".toList, Entry.shape [2, 3]]
          = "\x7b'descr': '<f4', 'shape': (2, 3), \x7d".toList
      ∧ (∀ u : Bool,
          parse_header u (dict_text [Entry.descr "<f4".toList, Entry.shape [2, 3]])
            = .ok { dtype := "<f4".toList, shape := [2, 3], fortran_order := u })
      ∧ parse_header true (dict_text [Entry.descr "<f4".toList, Entry.shape [2, 3]])
          ≠ .ok { dtype := "<f4".toList, shape := [2, 3], fortran_order := false } := by
  decide

/-! ### Reading on a machine with limits -/

/-- Without a limit below the range of `size_t` the constructor is `NumpyArray.create`. -/
theorem create_on_unlimited (T : DType) (shape : List Nat) :
    NumpyArray.create_on unlimited_memory T shape = NumpyArray.create T shape := by
  have hp := sizeof_pos T
  have h1 : (2 ^ 64 - 1) / sizeof T < total_size shape
      ↔ SIZE_MOD ≤ total_size shape * sizeof T := by
    rw [Nat.div_lt_iff_lt_mul hp]
    unfold SIZE_MOD
    omega
  unfold NumpyArray.create_on NumpyArray.create unlimited_memory
  by_cases h : SIZE_MOD ≤ total_size shape * sizeof T
  · simp only [h1.mpr h, h, if_true]
  · have h2 : ¬ (2 ^ 64 - 1 < total_size shape * sizeof T) := by
      unfold SIZE_MOD at h; omega
    have h3 : ¬ ((2 ^ 64 - 1) / sizeof T < total_size shape) := fun hc => h (h1.mp hc)
    simp only [h3, h2, h, if_false]

/-- Without a limit below the range of `size_t`, `read_payload_on` is `read_payload`. -/
theorem read_payload_on_unlimited (T : DType) (u : Uninitialised) (header_str : List Char)
    (st5 : IStream) :
    read_payload_on unlimited_memory T u header_str st5 = read_payload T u header_str st5 := by
  unfold read_payload_on read_payload
  simp only [create_on_unlimited]

/-- Without a limit below the range of `size_t`, `read_numpy_array_on` is
`read_numpy_array`. -/
theorem read_numpy_array_on_unlimited (T : DType) (u : Uninitialised)
    (file : Option (List Char)) :
    read_numpy_array_on unlimited_memory T u file = read_numpy_array T u file := by
  unfold read_numpy_array_on read_numpy_array
  simp only [create_on_unlimited]

theorem read_numpy_array_on_magic (m : Memory) (T : DType) (u : Uninitialised)
    (rest : List Char) :
    read_numpy_array_on m T u (some (MAGIC ++ rest))
      = read_payload_on m T u (read_frame u rest).1 (read_frame u rest).2 := by
  have e3 : (MAGIC ++ List.drop 6 u.magic).take 6 = MAGIC := by
    simp [MAGIC]
  unfold read_numpy_array_on
  simp only []
  rw [read_exact MAGIC _ _ 6 rfl]
  simp only [e3, ne_eq, not_true_eq_false, if_false]
  rfl

theorem read_payload_on_bad (m : Memory) (T : DType) (u : Uninitialised)
    (header_str : List Char) (st5 : IStream) (h : st5.good = false) :
    ∃ e, read_payload_on m T u header_str st5 = .error e := by
  unfold read_payload_on
  cases parse_header u.fortran_order header_str with
  | error e => exact ⟨e, rfl⟩
  | ok header =>
    simp only []
    cases NumpyArray.create_on m T header.shape with
    | error e => exact ⟨e, rfl⟩
    | ok array =>
      simp only [read_bad _ _ _ h, h]
      exact ⟨_, rfl⟩

theorem create_on_ok (m : Memory) (T : DType) (shape : List Nat) (array : NumpyArray)
    (h : NumpyArray.create_on m T shape = .ok array) :
    array.size = total_size shape ∧ total_size shape * sizeof T ≤ m.max_bytes := by
  have hp := sizeof_pos T
  unfold NumpyArray.create_on at h
  split_ifs at h with h1 h2
  injection h with h
  constructor
  · rw [← h]; rfl
  · have := Nat.not_lt.mp h1
    calc total_size shape * sizeof T ≤ m.max_bytes / sizeof T * sizeof T :=
          Nat.mul_le_mul_right _ this
      _ ≤ m.max_bytes := Nat.div_mul_le_self _ _

theorem read_payload_on_short (m : Memory) (T : DType) (u : Uninitialised) (hd p : List Char)
    (header : NumpyHeader) (hmax : m.max_bytes < 2 ^ 64)
    (hparse : parse_header u.fortran_order hd = .ok header)
    (hshort : p.length < total_size header.shape * sizeof T) :
    (∀ e, NumpyArray.create_on m T header.shape = .error e →
        read_payload_on m T u hd { rest := p, good := true } = .error e)
      ∧ (∀ array, NumpyArray.create_on m T header.shape = .ok array →
        read_payload_on m T u hd { rest := p, good := true } = .error .read_error) := by
  unfold read_payload_on
  rw [hparse]
  simp only []
  constructor
  · intro e he
    rw [he]
  · intro array ha
    obtain ⟨hsize, hle⟩ := create_on_ok m T header.shape array ha
    have hlt : total_size header.shape * sizeof T < SIZE_MOD := by
      unfold SIZE_MOD; omega
    rw [ha]
    simp only [hsize, Nat.mod_eq_of_lt hlt]
    rw [read_short _ _ _ hshort]
    simp

theorem read_numpy_array_on_split (m : Memory) (T : DType) (u : Uninitialised)
    (content : List Char) :
    read_numpy_array_on m T u (some content)
      = if (IStream.read { rest := content, good := true } 6 u.magic).1.take 6 ≠ MAGIC then
          .error .invalid_format
        else
          read_payload_on m T u
            (read_frame_from u (IStream.read { rest := content, good := true } 6 u.magic).2).1
            (read_frame_from u (IStream.read { rest := content, good := true } 6 u.magic).2).2 := by
  rfl

/-- On a machine whose `max_size()` is a `size_t` value the constructor either does what
`NumpyArray.create` does or throws one of the two errors of `std::vector::resize`. -/
theorem create_on_agrees (m : Memory) (T : DType) (shape : List Nat)
    (hmax : m.max_bytes < 2 ^ 64) :
    NumpyArray.create_on m T shape = NumpyArray.create T shape
      ∨ NumpyArray.create_on m T shape = .error .length_error
      ∨ NumpyArray.create_on m T shape = .error .bad_alloc := by
  have hp := sizeof_pos T
  unfold NumpyArray.create_on
  split_ifs with h1 h2
  · exact Or.inr (Or.inl rfl)
  · exact Or.inr (Or.inr rfl)
  · left
    have hle : total_size shape * sizeof T ≤ m.max_bytes :=
      calc total_size shape * sizeof T ≤ m.max_bytes / sizeof T * sizeof T :=
            Nat.mul_le_mul_right _ (Nat.not_lt.mp h1)
        _ ≤ m.max_bytes := Nat.div_mul_le_self _ _
    have h3 : ¬ (SIZE_MOD ≤ total_size shape * sizeof T) := by
      unfold SIZE_MOD; omega
    unfold NumpyArray.create
    rw [if_neg h3]

theorem read_payload_on_agrees (m : Memory) (T : DType) (u : Uninitialised)
    (header_str : List Char) (st5 : IStream) (hmax : m.max_bytes < 2 ^ 64) :
    read_payload_on m T u header_str st5 = read_payload T u header_str st5
      ∨ read_payload_on m T u header_str st5 = .error .length_error
      ∨ read_payload_on m T u header_str st5 = .error .bad_alloc := by
  unfold read_payload_on read_payload
  cases parse_header u.fortran_order header_str with
  | error e => exact Or.inl rfl
  | ok header =>
    simp only []
    rcases create_on_agrees m T header.shape hmax with h | h | h
    · rw [h]; exact Or.inl rfl
    · rw [h]; exact Or.inr (Or.inl rfl)
    · rw [h]; exact Or.inr (Or.inr rfl)

/-- On every machine `read_numpy_array<T>` either does what `read_numpy_array` does or
throws one of the two errors of `std::vector::resize`. -/
theorem read_numpy_array_on_agrees (m : Memory) (T : DType) (u : Uninitialised)
    (file : Option (List Char)) (hmax : m.max_bytes < 2 ^ 64) :
    read_numpy_array_on m T u file = read_numpy_array T u file
      ∨ read_numpy_array_on m T u file = .error .length_error
      ∨ read_numpy_array_on m T u file = .error .bad_alloc := by
  cases file with
  | none => exact Or.inl rfl
  | some content =>
    rw [read_numpy_array_on_split, read_numpy_array_split]
    split_ifs with hm
    · exact Or.inl rfl
    · exact read_payload_on_agrees m T u _ _ hmax

/-- C11, as stated, fails in its last part: a version 1.0 file of doubles whose complete
header text declares the shape `(4611686018427387904,)` and whose payload is missing does
not fail with the I/O error. The constructor of the array throws `std::length_error` for the
2^62 elements the shape asks for, before the payload is read; this is so on a 64-bit machine
with libstdc++ and on a machine without any limit below the range of `size_t`. -/
theorem short_payload_counterexample :
    oversized_rest = Char.ofNat 1 :: Char.ofNat 0 :: (uint16_bytes 76 ++ (oversized_header ++ []))
      ∧ (uint16_bytes 76).length = len_field_size (Char.ofNat 1)
      ∧ oversized_header.length = header_len_of (Char.ofNat 1) (uint16_bytes 76)
      ∧ parse_header stale.fortran_order oversized_header
          = .ok { dtype := "<f8".toList, shape := [4611686018427387904],
                  fortran_order := false }
      ∧ ([] : List Char).length < total_size [4611686018427387904] * sizeof DType.double
      ∧ read_numpy_array_on sample_memory DType.double stale (some (MAGIC ++ oversized_rest))
          = .error .length_error
      ∧ read_numpy_array_on sample_memory DType.double stale (some (MAGIC ++ oversized_rest))
          ≠ .error .read_error
      ∧ read_numpy_array DType.double stale (some (MAGIC ++ oversized_rest))
          = .error .length_error := by
  decide

/-- C11, amended: on every machine, for every file content that begins with the magic bytes
and ends inside the version bytes, inside the length field, inside the header text, or,
after a complete header text that decodes, with fewer than `size() * sizeof(T)` payload
bytes, `read_numpy_array` fails with an error and never returns an array. When only the
payload is short, the error is the I/O error if the array for the decoded shape is created,
and otherwise it is the error its constructor throws, `std::length_error` or
`std::bad_alloc`. -/
theorem truncated_file_rejected (m : Memory) (T : DType) (u : Uninitialised)
    (rest : List Char) (hmax : m.max_bytes < 2 ^ 64)
    (htrunc : rest.length < 2
      ∨ (∃ major minor l, rest = major :: minor :: l ∧ l.length < len_field_size major)
      ∨ (∃ major minor l hd, rest = major :: minor :: (l ++ hd)
          ∧ l.length = len_field_size major ∧ hd.length < header_len_of major l)
      ∨ (∃ major minor l hd p header, rest = major :: minor :: (l ++ (hd ++ p))
          ∧ l.length = len_field_size major ∧ hd.length = header_len_of major l
          ∧ parse_header u.fortran_order hd = .ok header
          ∧ p.length < total_size header.shape * sizeof T)) :
    (∃ e, read_numpy_array_on m T u (some (MAGIC ++ rest)) = .error e)
      ∧ ∀ major minor l hd p header, rest = major :: minor :: (l ++ (hd ++ p)) →
          l.length = len_field_size major → hd.length = header_len_of major l →
          parse_header u.fortran_order hd = .ok header →
          p.length < total_size header.shape * sizeof T →
          (∀ array, NumpyArray.create_on m T header.shape = .ok array →
              read_numpy_array_on m T u (some (MAGIC ++ rest)) = .error .read_error)
            ∧ (∀ e, NumpyArray.create_on m T header.shape = .error e →
              read_numpy_array_on m T u (some (MAGIC ++ rest)) = .error e
                ∧ (e = .length_error ∨ e = .bad_alloc)) := by
  have hkind : ∀ (shape : List Nat) (e : NpyError),
      NumpyArray.create_on m T shape = .error e → e = .length_error ∨ e = .bad_alloc := by
    intro shape e he
    unfold NumpyArray.create_on at he
    split_ifs at he <;> cases he <;> simp
  constructor
  · rcases htrunc with h | h | h | ⟨major, minor, l, hd, p, header, hrest, hl, hh, hp, hs⟩
    · rw [read_numpy_array_on_magic]
      exact read_payload_on_bad m T u _ _ (read_frame_truncated u rest (Or.inl h))
    · rw [read_numpy_array_on_magic]
      exact read_payload_on_bad m T u _ _ (read_frame_truncated u rest (Or.inr (Or.inl h)))
    · rw [read_numpy_array_on_magic]
      exact read_payload_on_bad m T u _ _ (read_frame_truncated u rest (Or.inr (Or.inr h)))
    · rw [hrest, read_numpy_array_on_magic, read_frame_complete u major minor l hd p hl hh]
      have hboth := read_payload_on_short m T u hd p header hmax hp hs
      cases hc : NumpyArray.create_on m T header.shape with
      | error e => exact ⟨e, hboth.1 e hc⟩
      | ok array => exact ⟨_, hboth.2 array hc⟩
  · intro major minor l hd p header hrest hl hh hp hs
    rw [hrest, read_numpy_array_on_magic, read_frame_complete u major minor l hd p hl hh]
    have hboth := read_payload_on_short m T u hd p header hmax hp hs
    exact ⟨hboth.2, fun e he => ⟨hboth.1 e he, hkind _ e he⟩⟩

/-- The file written for the 2 x 3 float array, cut after the first element, is rejected,
and with the I/O error since the array of six floats is created. -/
theorem truncated_file_rejected_witness :
    (∃ e, read_numpy_array_on sample_memory DType.float stale
        (some (MAGIC ++ short_payload_rest)) = .error e)
      ∧ NumpyArray.create_on sample_memory DType.float [2, 3] = .ok zeros_2x3
      ∧ read_numpy_array_on sample_memory DType.float stale
          (some (MAGIC ++ short_payload_rest)) = .error .read_error :=
  ⟨(truncated_file_rejected sample_memory DType.float stale short_payload_rest (by decide)
      (Or.inr (Or.inr (Or.inr ⟨Char.ofNat 1, Char.ofNat 0, uint16_bytes 71,
        padded_header DType.float floats_2x3, ['\x00', '\x00', '\x80', '\x3f'],
        { dtype := "<f4".toList, shape := [2, 3], fortran_order := false },
        rfl, by decide, by decide, by decide, by decide⟩)))).1,
   by decide,
   ((truncated_file_rejected sample_memory DType.float stale short_payload_rest (by decide)
      (Or.inr (Or.inr (Or.inr ⟨Char.ofNat 1, Char.ofNat 0, uint16_bytes 71,
        padded_header DType.float floats_2x3, ['\x00', '\x00', '\x80', '\x3f'],
        { dtype := "<f4".toList, shape := [2, 3], fortran_order := false },
        rfl, by decide, by decide, by decide, by decide⟩)))).2
      (Char.ofNat 1) (Char.ofNat 0) (uint16_bytes 71) (padded_header DType.float floats_2x3)
      ['\x00', '\x00', '\x80', '\x3f']
      { dtype := "<f4".toList, shape := [2, 3], fortran_order := false }
      rfl (by decide) (by decide) (by decide) (by decide)).1 zeros_2x3 (by decide)⟩

end numpy_io
